import Mathlib

/-!
Verification development for the `astro-contrast` color / cascade / contrast
engine. Each definition is a shallow embedding of the TypeScript function of
the same name (paths given per section). JavaScript numbers are modelled as
exact rationals or reals; a JavaScript `NaN` is modelled as `none` of an
`Option` type. Transcendental `Math` functions used by the color-space
conversions are abstract parameters (`TransFns`): the real JavaScript `Math`
object is one instance, and every theorem quantifies over all instances.
-/

namespace AstroContrast

/-! ## JavaScript real arithmetic with NaN (`Option ℝ`)

Used for the WCAG calculator (`src/packages/astro-contrast/src/contrast/calculator.ts`
and the WCAG evaluator), where actual real-valued facts (claim C7) are needed. -/

/-- A JavaScript number in the calculator: `none` models NaN. -/
abbrev JsR := Option ℝ

/-- `trim` on a character list (JavaScript `String.prototype.trim`). -/
def trimChars (cs : List Char) : List Char :=
  ((cs.dropWhile Char.isWhitespace).reverse.dropWhile Char.isWhitespace).reverse

/-- `value.trim()`. -/
def jsTrim (s : String) : String := String.mk (trimChars s.toList)

/-- `value.toLowerCase()` (ASCII case mapping). -/
def jsLower (s : String) : String := String.mk (s.toList.map Char.toLower)

noncomputable def jrAdd : JsR → JsR → JsR
  | some a, some b => some (a + b)
  | _, _ => none

noncomputable def jrSub : JsR → JsR → JsR
  | some a, some b => some (a - b)
  | _, _ => none

noncomputable def jrMul : JsR → JsR → JsR
  | some a, some b => some (a * b)
  | _, _ => none

noncomputable def jrDiv : JsR → JsR → JsR
  | some a, some b => some (a / b)
  | _, _ => none

/-- `Math.max`: NaN-propagating. -/
noncomputable def jrMax : JsR → JsR → JsR
  | some a, some b => some (max a b)
  | _, _ => none

/-- `Math.min`: NaN-propagating. -/
noncomputable def jrMin : JsR → JsR → JsR
  | some a, some b => some (min a b)
  | _, _ => none

/-- `Math.round` on a real: round half away from zero is `⌊x + 1/2⌋` for the
values that occur here (JavaScript rounds half up). -/
noncomputable def jsRound (x : ℝ) : ℝ := ((⌊x + 1/2⌋ : ℤ) : ℝ)

noncomputable def jrRound : JsR → JsR := Option.map jsRound

/-- `x >= t` in JavaScript: false when `x` is NaN. -/
def jrGe (x : JsR) (t : ℝ) : Prop := ∃ v, x = some v ∧ t ≤ v

/-! ## `src/packages/astro-contrast/src/contrast/calculator.ts` -/

/-- An `RgbColor` as the calculator consumes it: `{r, g, b: number; a?: number}`.
The outer `Option` on `a` is presence of the field, the inner one is NaN. -/
structure RgbR where
  r : JsR
  g : JsR
  b : JsR
  a : Option JsR := none

/-- `linearize(channel)` from calculator.ts (threshold 0.03928, exponent 2.4). -/
noncomputable def linearize (channel : ℝ) : ℝ :=
  let s := channel / 255
  if s ≤ 0.03928 then s / 12.92 else ((s + 0.055) / 1.055) ^ (2.4 : ℝ)

noncomputable def jrLinearize : JsR → JsR := Option.map linearize

/-- `relativeLuminance(color)`. -/
noncomputable def relativeLuminance (color : RgbR) : JsR :=
  jrAdd
    (jrAdd (jrMul (some 0.2126) (jrLinearize color.r))
      (jrMul (some 0.7152) (jrLinearize color.g)))
    (jrMul (some 0.0722) (jrLinearize color.b))

/-- An if-then-else on an arbitrary proposition (JavaScript boolean tests on
possibly-NaN numbers are propositions here, decided classically). -/
noncomputable def pite {α : Sort _} (p : Prop) (t e : α) : α :=
  @ite α p (Classical.propDecidable p) t e

/-- `compositeOnBackground(fg, bg)`: `a = fg.a ?? 1; if (a >= 1) return fg;`
otherwise per-channel `round(fg*a + bg*(1-a))`, the result carrying no alpha. -/
noncomputable def compositeOnBackground (fg bg : RgbR) : RgbR :=
  let a : JsR := fg.a.getD (some 1)
  pite (jrGe a 1) fg
    { r := jrRound (jrAdd (jrMul fg.r a) (jrMul bg.r (jrSub (some 1) a)))
      g := jrRound (jrAdd (jrMul fg.g a) (jrMul bg.g (jrSub (some 1) a)))
      b := jrRound (jrAdd (jrMul fg.b a) (jrMul bg.b (jrSub (some 1) a)))
      a := none }

/-- `contrastRatio(fg, bg)`: composites `fg` onto `bg`, then
`(lighter + 0.05) / (darker + 0.05)` of the two luminances. -/
noncomputable def contrastRatio (fg bg : RgbR) : JsR :=
  let compositedFg := compositeOnBackground fg bg
  let l1 := relativeLuminance compositedFg
  let l2 := relativeLuminance bg
  jrDiv (jrAdd (jrMax l1 l2) (some 0.05)) (jrAdd (jrMin l1 l2) (some 0.05))

/-! ## WCAG evaluator (`evaluateContrast` and helpers) -/

/-- Digit list to the natural number it denotes (most significant first). -/
def digitsVal (ds : List Char) : ℕ :=
  ds.foldl (fun n c => n * 10 + (c.toNat - 48)) 0

/-- Value of a decimal literal with integer digits `ds` and fraction digits `fs`. -/
def decValue (ds fs : List Char) : ℚ :=
  (digitsVal ds : ℚ) + (digitsVal fs : ℚ) / 10 ^ fs.length

/-- The longest leading run of decimal digits, with the rest. -/
def spanDigits (cs : List Char) : List Char × List Char :=
  cs.span Char.isDigit

/-- JavaScript `parseInt(s, 10)` on an already-listed string: leading
whitespace skipped, optional sign, then a digit run; no digits gives NaN. -/
def parseIntDec (cs : List Char) : Option ℤ :=
  let cs := cs.dropWhile Char.isWhitespace
  match cs with
  | '-' :: r =>
      let (ds, _) := spanDigits r
      if ds.isEmpty then none else some (-(digitsVal ds : ℤ))
  | '+' :: r =>
      let (ds, _) := spanDigits r
      if ds.isEmpty then none else some (digitsVal ds : ℤ)
  | r =>
      let (ds, _) := spanDigits r
      if ds.isEmpty then none else some (digitsVal ds : ℤ)

/-- `parseFontSizePx(fontSize)`: anchored pattern
`(digits(.digits)?)\s*(px|pt|rem|em|%)?` over the trimmed lowercased text,
converted to pixels (`pt` times 4/3, `rem`/`em` times 16, `%` times 0.16). -/
def parseFontSizePx (fontSize : String) : Option ℚ :=
  let cs := (jsLower (jsTrim fontSize)).toList
  let (ds, rest) := spanDigits cs
  if ds.isEmpty then none
  else
    let step : List Char → List Char → Option ℚ := fun fs r =>
      let v := decValue ds fs
      let unit := String.mk (r.dropWhile Char.isWhitespace)
      if unit = "" ∨ unit = "px" then some v
      else if unit = "pt" then some (v * (4 / 3))
      else if unit = "rem" ∨ unit = "em" then some (v * 16)
      else if unit = "%" then some (v * (16 / 100))
      else none
    match rest with
    | '.' :: r =>
        let (fs, r2) := spanDigits r
        if fs.isEmpty then none else step fs r2
    | r => step [] r

/-- `parseFontWeightNumeric(fontWeight)`: `parseInt` first, then the keyword
table, defaulting to 400. -/
def parseFontWeightNumeric (fontWeight : String) : ℚ :=
  let t := jsLower (jsTrim fontWeight)
  match parseIntDec t.toList with
  | some n => (n : ℚ)
  | none =>
      if t = "bold" ∨ t = "bolder" then 700
      else if t = "normal" ∨ t = "lighter" then 400
      else 400

/-- `isLargeText(fontSize, fontWeight)`: at least 18px, or at least 14px and
weight at least 700. An absent (or empty, hence falsy) font size is not large. -/
def isLargeText (fontSize fontWeight : Option String) : Bool :=
  match fontSize with
  | none => false
  | some fs =>
      if fs = "" then false
      else
        match parseFontSizePx fs with
        | none => false
        | some px =>
            if 18 ≤ px then true
            else if 14 ≤ px then
              let weight : ℚ :=
                match fontWeight with
                | some fw => if fw = "" then 400 else parseFontWeightNumeric fw
                | none => 400
              decide (700 ≤ weight)
            else false

structure TextSizeOptions where
  fontSize : Option String := none
  fontWeight : Option String := none

structure WcagEvaluation where
  ratio : JsR
  meetsAA : Prop
  meetsAAA : Prop
  level : String
  isLargeText : Bool

/-- `evaluateContrast(foreground, background, options)`: thresholds
AA 4.5 / AAA 7 for normal text, AA 3 / AAA 4.5 for large text. -/
noncomputable def evaluateContrast (foreground background : RgbR)
    (options : Option TextSizeOptions) : WcagEvaluation :=
  let ratio := contrastRatio foreground background
  let fs := match options with | some o => o.fontSize | none => none
  let fw := match options with | some o => o.fontWeight | none => none
  let largeText := isLargeText fs fw
  let aaThreshold : ℝ := if largeText then 3 else 4.5
  let aaaThreshold : ℝ := if largeText then 4.5 else 7
  let meetsAA := jrGe ratio aaThreshold
  let meetsAAA := jrGe ratio aaaThreshold
  { ratio := ratio
    meetsAA := meetsAA
    meetsAAA := meetsAAA
    level := pite meetsAAA "pass" (pite meetsAA "aaa-only" "aa-fail")
    isLargeText := largeText }

/-- A color is opaque for the calculator when its alpha field is absent or a
real value at least 1 (a NaN alpha is not opaque: `a >= 1` is then false). -/
def OpaqueR (c : RgbR) : Prop :=
  c.a = none ∨ ∃ v : ℝ, c.a = some (some v) ∧ 1 ≤ v

/-! ## `src/packages/astro-contrast/src/resolver/custom-properties.ts`

Declaration values are tokenized by the external `postcss-value-parser`
package (a dependency, not code of this repository). `parseNodes` below
models its tokenizer on the CSS value grammar the resolver relies on: words,
whitespace runs, the separators `,` `/` `:`, and function calls with nested
nodes (quoted strings are not distinguished from words; an unclosed function
is closed at the end of input). The property map is modelled by its lookup
function. -/

mutual

inductive VNode where
  | word (v : String) : VNode
  | space (v : String) : VNode
  | div (v : String) : VNode
  | func (name : String) (children : VForest) : VNode

inductive VForest where
  | nil : VForest
  | cons (head : VNode) (tail : VForest) : VForest

end

def isSep (c : Char) : Bool := c = ',' || c = '/' || c = ':'

def isWordChar (c : Char) : Bool :=
  !c.isWhitespace && !isSep c && c ≠ '(' && c ≠ ')'

/-- The tokenizer: `inFunc` says whether a `)` closes the current function.
The fuel argument only drives the recursion; `parseValue` passes enough fuel
that it never runs out (every step consumes at least one character). -/
def parseNodes : ℕ → Bool → List Char → VForest × List Char
  | 0, _, cs => (.nil, cs)
  | _ + 1, _, [] => (.nil, [])
  | f + 1, inFunc, ')' :: rest =>
      if inFunc then (.nil, rest)
      else
        let (ns, r) := parseNodes f inFunc rest
        (.cons (.word ")") ns, r)
  | f + 1, inFunc, c :: rest =>
      if c.isWhitespace then
        let (run, r) := (c :: rest).span Char.isWhitespace
        let (ns, r2) := parseNodes f inFunc r
        (.cons (.space (String.mk run)) ns, r2)
      else if isSep c then
        let (ns, r2) := parseNodes f inFunc rest
        (.cons (.div (String.mk [c])) ns, r2)
      else
        let (w, r) := (c :: rest).span isWordChar
        match r with
        | '(' :: r2 =>
            let (children, r3) := parseNodes f true r2
            let (ns, r4) := parseNodes f inFunc r3
            (.cons (.func (String.mk w) children) ns, r4)
        | r2 =>
            let (ns, r3) := parseNodes f inFunc r2
            (.cons (.word (String.mk w)) ns, r3)

def parseValue (s : String) : VForest :=
  (parseNodes (s.length + 1) false s.toList).1

mutual

/-- `valueParser.stringify` on one node. -/
def stringifyN : VNode → String
  | .word v => v
  | .space v => v
  | .div v => v
  | .func name children => name ++ "(" ++ stringifyF children ++ ")"

def stringifyF : VForest → String
  | .nil => ""
  | .cons n rest => stringifyN n ++ stringifyF rest

end

def VForest.toList : VForest → List VNode
  | .nil => []
  | .cons n rest => n :: rest.toList

/-- `node.value` of the value parser. -/
def VNode.nodeValue : VNode → String
  | .word v => v
  | .space v => v
  | .div v => v
  | .func name _ => name

def VNode.isSpaceNode : VNode → Bool
  | .space _ => true
  | _ => false

def VNode.isDivNode : VNode → Bool
  | .div _ => true
  | _ => false

def listStartsWith : List Char → List Char → Bool
  | [], _ => true
  | _ :: _, [] => false
  | a :: as, b :: bs => a = b && listStartsWith as bs

def listHasSub (needle : List Char) : List Char → Bool
  | [] => listStartsWith needle []
  | c :: rest => listStartsWith needle (c :: rest) || listHasSub needle rest

/-- `value.includes('var(')`. -/
def hasVarCall (s : String) : Bool := listHasSub "var(".toList s.toList

mutual

/-- One step of the resolver's walk on a node. On a `var(...)` function node:
its non-div non-space arguments give the property name (first argument) and
the fallback text (the rest, stringified, joined, trimmed); the bound value
or the fallback is resolved by `resolveNext` (the resolver one depth deeper),
and a failure of this occurrence is a failure of the node. Other function
nodes are walked into; plain nodes pass through. -/
def substNode (props : String → Option String)
    (resolveNext : String → Option String) : VNode → Option VNode
  | .func name children =>
      if name = "var" then
        let args := children.toList.filter
          fun n => !(VNode.isDivNode n) && !(VNode.isSpaceNode n)
        let fallback := jsTrim (String.join ((args.drop 1).map stringifyN))
        let propName := (args.head?.map VNode.nodeValue).getD ""
        let resolved : Option String :=
          if propName ≠ "" ∧ (props propName).isSome then
            resolveNext ((props propName).getD "")
          else if fallback ≠ "" then resolveNext fallback
          else none
        match resolved with
        | some rv => some (.word rv)
        | none => none
      else
        match substForest props resolveNext children with
        | some cs => some (.func name cs)
        | none => none
  | .word v => some (.word v)
  | .space v => some (.space v)
  | .div v => some (.div v)

def substForest (props : String → Option String)
    (resolveNext : String → Option String) : VForest → Option VForest
  | .nil => some .nil
  | .cons n rest =>
      match substNode props resolveNext n, substForest props resolveNext rest with
      | some n2, some r2 => some (.cons n2 r2)
      | _, _ => none

end

/-- `MAX_DEPTH` of custom-properties.ts. -/
def maxDepth : ℕ := 10

/-- The string-level resolver, fuel-indexed: fuel `maxDepth - depth` models
the source's `depth` argument, so zero fuel is the `depth >= MAX_DEPTH`
guard. A value with no `var(` substring is returned unchanged; otherwise
every `var()` occurrence is substituted and a single failure fails the
whole value. -/
def resolveVar (props : String → Option String) : ℕ → String → Option String
  | 0, _ => none
  | fuel + 1, value =>
      if hasVarCall value = false then some value
      else
        match substForest props (fun s => resolveVar props fuel s) (parseValue value) with
        | some nodes => some (stringifyF nodes)
        | none => none

/-- `resolveCustomProperty(value, properties, depth)`. -/
def resolveCustomProperty (value : String) (props : String → Option String)
    (depth : ℕ) : Option String :=
  resolveVar props (maxDepth - depth) value

mutual

/-- The `var()` occurrences the walk reaches in one node: a `var` function is
itself an occurrence (the walk does not descend into it); other functions
are searched recursively. -/
def varOccsN : VNode → List VNode
  | .func name children =>
      if name = "var" then [.func name children] else varOccsF children
  | _ => []

def varOccsF : VForest → List VNode
  | .nil => []
  | .cons n rest => varOccsN n ++ varOccsF rest

end

/-- The direct-cycle property map `--a: var(--b); --b: var(--a)`. -/
def cycleProps : String → Option String :=
  fun s =>
    if s = "--a" then some "var(--b)"
    else if s = "--b" then some "var(--a)"
    else none

/-- A map with one resolvable property, for the C5 witness. -/
def goodProps : String → Option String :=
  fun s => if s = "--good" then some "#fff" else none

/-! ## `src/packages/astro-contrast/src/matcher/selector-matcher.ts` — selector
parsing, matching, specificity, and `findBestDeclaration`.

All scanners below mirror the regular expressions of the source; a fuel
argument (always called with more fuel than the input's length) makes them
structurally recursive so concrete runs reduce definitionally. -/

/-- A character of `[\w-]`. -/
def isWordHyphen (c : Char) : Bool := c.isAlphanum || c = '_' || c = '-'

/-- First character of a class or id name: `[a-zA-Z_-]`. -/
def isNameStart (c : Char) : Bool := c.isAlpha || c = '_' || c = '-'

/-- Later character of a class or id name: `[a-zA-Z0-9_-]`. -/
def isNameCont (c : Char) : Bool := c.isAlphanum || c = '_' || c = '-'

/-- Skip the `(\([^)]*\))*` tail of a pseudo-class: zero or more parenthesis
groups with no nested `(`...`)` tracking, each closed by the next `)`. -/
def skipParenGroups : ℕ → List Char → List Char
  | 0, cs => cs
  | f + 1, cs =>
      match cs with
      | '(' :: r =>
          match r.dropWhile (fun c => c ≠ ')') with
          | ')' :: r2 => skipParenGroups f r2
          | _ => cs
      | _ => cs

/-- `trimmed.replace(/::?[\w-]+(\([^)]*\))*/g, '')`. -/
def stripPseudo : ℕ → List Char → List Char
  | 0, cs => cs
  | f + 1, cs =>
      match cs with
      | [] => []
      | ':' :: rest =>
          let body := match rest with | ':' :: r => r | r => r
          let (name, r2) := body.span isWordHyphen
          if name.isEmpty then ':' :: stripPseudo f rest
          else stripPseudo f (skipParenGroups r2.length r2)
      | c :: rest => c :: stripPseudo f rest

/-- `trimmed.replace(/\[[^\]]*\]/g, '')`. -/
def stripAttr : ℕ → List Char → List Char
  | 0, cs => cs
  | f + 1, cs =>
      match cs with
      | [] => []
      | '[' :: rest =>
          match rest.dropWhile (fun c => c ≠ ']') with
          | ']' :: r2 => stripAttr f r2
          | _ => '[' :: stripAttr f rest
      | c :: rest => c :: stripAttr f rest

/-- The anchored tag match `^([a-zA-Z][a-zA-Z0-9-]*)`. -/
def takeTag (cs : List Char) : Option String :=
  match cs with
  | c :: rest =>
      if c.isAlpha then
        some (String.mk (c :: rest.takeWhile fun ch => ch.isAlphanum || ch = '-'))
      else none
  | [] => none

/-- All matches of `\.([a-zA-Z_-][a-zA-Z0-9_-]*)`, scanned left to right. -/
def collectClasses : ℕ → List Char → List String
  | 0, _ => []
  | f + 1, cs =>
      match cs with
      | [] => []
      | '.' :: c :: rest =>
          if isNameStart c then
            let (run, r) := rest.span isNameCont
            String.mk (c :: run) :: collectClasses f r
          else collectClasses f (c :: rest)
      | _ :: rest => collectClasses f rest

/-- The first match of `#([a-zA-Z_-][a-zA-Z0-9_-]*)`. -/
def findIdName : ℕ → List Char → Option String
  | 0, _ => none
  | f + 1, cs =>
      match cs with
      | [] => none
      | '#' :: c :: rest =>
          if isNameStart c then some (String.mk (c :: rest.takeWhile isNameCont))
          else findIdName f (c :: rest)
      | _ :: rest => findIdName f rest

structure SelectorPart where
  tagName : Option String
  classes : List String
  id : Option String
  isUniversal : Bool
  deriving DecidableEq

/-- `parseSelectorPart(s)`. -/
def parseSelectorPart (s : String) : Option SelectorPart :=
  let t1 := trimChars s.toList
  if t1.isEmpty then none
  else if t1 = ['*'] then some ⟨none, [], none, true⟩
  else
    let t2 := trimChars (stripPseudo (t1.length + 1) t1)
    if t2.isEmpty then none
    else
      let t3 := trimChars (stripAttr (t2.length + 1) t2)
      if t3.isEmpty then none
      else
        let tag := takeTag t3
        let cls := collectClasses (t3.length + 1) t3
        let idName := findIdName (t3.length + 1) t3
        if tag = none ∧ cls = [] ∧ idName = none then none
        else some ⟨tag, cls, idName, false⟩

/-- The selector tokenizer `/\s*([>+~])\s*|\s+/g`: returns the segments that
precede a separator (paired with the separator's combinator, a space for a
plain whitespace separator; empty segments are dropped with their
combinator) and the final segment. -/
def tokSel : ℕ → List Char → List Char → List (String × Char) × String
  | 0, cur, _ => ([], String.mk (trimChars cur.reverse))
  | _ + 1, cur, [] => ([], String.mk (trimChars cur.reverse))
  | f + 1, cur, c :: rest =>
      if c.isWhitespace || c = '>' || c = '+' || c = '~' then
        let afterWs := (c :: rest).dropWhile Char.isWhitespace
        match afterWs with
        | sym :: r2 =>
            if sym = '>' || sym = '+' || sym = '~' then
              let r3 := r2.dropWhile Char.isWhitespace
              let seg := String.mk (trimChars cur.reverse)
              let (pairs, last) := tokSel f [] r3
              if seg = "" then (pairs, last) else ((seg, sym) :: pairs, last)
            else
              let seg := String.mk (trimChars cur.reverse)
              let (pairs, last) := tokSel f [] afterWs
              if seg = "" then (pairs, last) else ((seg, ' ') :: pairs, last)
        | [] =>
            let seg := String.mk (trimChars cur.reverse)
            if seg = "" then ([], "") else ([(seg, ' ')], "")
      else
        tokSel f (c :: cur) rest

structure ParsedSelector where
  target : SelectorPart
  /-- Nearest first; each with the combinator between it and the part to its
  right, exactly as the source builds `ancestors`. -/
  ancestors : List (Char × SelectorPart)
  deriving DecidableEq

/-- `parseSelector(selector)`. -/
def parseSelector (selector : String) : Option ParsedSelector :=
  let trimmed := jsTrim selector
  if trimmed = "" then none
  else
    let (pairs, last) := tokSel (trimmed.length + 1) [] trimmed.toList
    let segments := pairs.map Prod.fst ++ (if last = "" then [] else [last])
    let combinators := pairs.map Prod.snd
    if segments.isEmpty then none
    else
      match segments.mapM parseSelectorPart with
      | none => none
      | some parts =>
          match parts.getLast? with
          | none => none
          | some target =>
              let ancestors := ((combinators.zip parts.dropLast).map
                fun p => (p.1, p.2)).reverse
              some ⟨target, ancestors⟩

/-- The inline-style map of an element. -/
structure InlineStyleInfo where
  color : Option String := none
  backgroundColor : Option String := none
  fontSize : Option String := none
  fontWeight : Option String := none

/-- An `HtmlElementInfo`: tag, classes, id, inline styles, text flag, ignored
flag, and the non-owning parent reference (the source position plays no part
in any computation modelled here and is omitted). -/
inductive Elem where
  | mk (tagName : String) (classes : List String) (id : Option String)
      (inlineStyles : Option InlineStyleInfo) (hasTextContent : Bool)
      (ignored : Bool) (parent : Option Elem)

def Elem.tagName : Elem → String
  | .mk t _ _ _ _ _ _ => t

def Elem.classes : Elem → List String
  | .mk _ c _ _ _ _ _ => c

def Elem.id : Elem → Option String
  | .mk _ _ i _ _ _ _ => i

def Elem.inlineStyles : Elem → Option InlineStyleInfo
  | .mk _ _ _ s _ _ _ => s

def Elem.hasTextContent : Elem → Bool
  | .mk _ _ _ _ h _ _ => h

def Elem.ignored : Elem → Bool
  | .mk _ _ _ _ _ g _ => g

def Elem.parent : Elem → Option Elem
  | .mk _ _ _ _ _ _ p => p

/-- `matchesPart(element, part)`. -/
def matchesPart (element : Elem) (part : SelectorPart) : Bool :=
  if part.isUniversal then true
  else if part.tagName.isSome && part.tagName ≠ some element.tagName then false
  else if part.id.isSome && element.id ≠ part.id then false
  else if part.classes.any (fun cls => !(element.classes.contains cls)) then false
  else if part.tagName = none && part.classes.isEmpty && part.id = none then false
  else true

/-- `current?.parentElement`. -/
def parentOf (cur : Option Elem) : Option Elem :=
  cur.bind Elem.parent

/-- The descendant-combinator walk: the nearest ancestor (of the given
starting point, inclusive) matching the part. -/
def ascendMatch (part : SelectorPart) : Option Elem → Option Elem
  | none => none
  | some (.mk t c i s h g p) =>
      if matchesPart (.mk t c i s h g p) part then some (.mk t c i s h g p)
      else ascendMatch part p

/-- The ancestor loop of `matchesSelector`: child combinator checks the
immediate parent, descendant searches upward, sibling combinators break. -/
def matchAncestors : Option Elem → List (Char × SelectorPart) → Bool
  | _, [] => true
  | cur, (comb, part) :: rest =>
      if comb = '>' then
        match parentOf cur with
        | none => false
        | some e => if matchesPart e part then matchAncestors (some e) rest else false
      else if comb = ' ' then
        match ascendMatch part (parentOf cur) with
        | none => false
        | some e => matchAncestors (some e) rest
      else true

/-- `matchesSelector(element, selector)`. -/
def matchesSelector (element : Elem) (sel : ParsedSelector) : Bool :=
  matchesPart element sel.target && matchAncestors (some element) sel.ancestors

/-- `partSpecificity(part)`: id 100, class 10, tag 1, universal 0. -/
def partSpecificity (part : SelectorPart) : ℕ :=
  if part.isUniversal then 0
  else (if part.id.isSome then 100 else 0) + part.classes.length * 10 +
    (if part.tagName.isSome then 1 else 0)

/-- `selectorSpecificity(selector)`: summed over the target and all ancestor
parts. -/
def selectorSpecificity (sel : ParsedSelector) : ℕ :=
  partSpecificity sel.target +
    (sel.ancestors.map fun p => partSpecificity p.2).sum

structure CssDeclarationInfo where
  property : String
  value : String
  resolvedValue : Option String
  deriving DecidableEq

structure CssRuleInfo where
  selector : String
  declarations : List CssDeclarationInfo
  ignored : Bool
  deriving DecidableEq

structure MatchedDeclaration where
  declaration : CssDeclarationInfo
  specificity : ℕ
  selector : String
  deriving DecidableEq

/-- A declaration satisfies a property lookup (a bare `background` also
answers a `background-color` lookup). -/
def declAnswers (property declProp : String) : Bool :=
  declProp = property || (property = "background-color" && declProp = "background")

/-- The inner `for (const decl of rule.declarations)` fold: keep the incoming
candidate with specificity `spec` when there is no best yet or
`spec >= best.specificity`. -/
def considerDecl (spec : ℕ) (sel : String) (property : String)
    (b : Option MatchedDeclaration) (decl : CssDeclarationInfo) :
    Option MatchedDeclaration :=
  if declAnswers property decl.property then
    match b with
    | none => some ⟨decl, spec, sel⟩
    | some bb => if bb.specificity ≤ spec then some ⟨decl, spec, sel⟩ else some bb
  else b

/-- One iteration of the outer rule loop of `findBestDeclaration`. -/
def considerRule (element : Elem) (property : String)
    (best : Option MatchedDeclaration) (rule : CssRuleInfo) :
    Option MatchedDeclaration :=
  if rule.ignored then best
  else
    match parseSelector rule.selector with
    | none => best
    | some parsed =>
        if matchesSelector element parsed then
          rule.declarations.foldl
            (considerDecl (selectorSpecificity parsed) rule.selector property) best
        else best

/-- `findBestDeclaration(element, rules, property)`. -/
def findBestDeclaration (element : Elem) (rules : List CssRuleInfo)
    (property : String) : Option MatchedDeclaration :=
  rules.foldl (considerRule element property) none

/-- The candidate declarations of one rule: those of a non-ignored rule whose
selector parses and matches the element and whose property answers the
lookup, labelled with the rule's specificity and selector. -/
def ruleCandidates (element : Elem) (property : String) (rule : CssRuleInfo) :
    List MatchedDeclaration :=
  if rule.ignored then []
  else
    match parseSelector rule.selector with
    | none => []
    | some parsed =>
        if matchesSelector element parsed then
          (rule.declarations.filter fun d => declAnswers property d.property).map
            fun d => ⟨d, selectorSpecificity parsed, rule.selector⟩
        else []

/-- All candidates over the rule list, in document order. -/
def candidates (element : Elem) (rules : List CssRuleInfo) (property : String) :
    List MatchedDeclaration :=
  (rules.map (ruleCandidates element property)).flatten

/-- The claim's selection rule, as a fold over the flat candidate list: the
later candidate wins at equal or higher specificity. -/
def pickStep (b : Option MatchedDeclaration) (c : MatchedDeclaration) :
    Option MatchedDeclaration :=
  match b with
  | none => some c
  | some bb => if bb.specificity ≤ c.specificity then some c else some bb

def pickBest (l : List MatchedDeclaration) : Option MatchedDeclaration :=
  l.foldl pickStep none

/-- The `<p class="subtitle">` element of the specificity example. -/
def subtitleElem : Elem := .mk "p" ["subtitle"] none none true false none

/-- The `p {color:#000}` and `.subtitle {color:#999}` rules of the
specificity example. -/
def subtitleRules : List CssRuleInfo :=
  [⟨"p", [⟨"color", "#000", some "#000"⟩], false⟩,
   ⟨".subtitle", [⟨"color", "#999", some "#999"⟩], false⟩]

/-! ## `src/packages/astro-contrast/src/contrast/color-utils.ts`

JavaScript numbers in the parser are exact rationals; `none` of `JsQ` models
NaN. The transcendental `Math` functions (and number-to-string formatting,
used when a color-mix in hsl space rebuilds an `hsl()` string) are the
abstract parameter `TransFns`: JavaScript's `Math` on doubles is one
instance, and every theorem below holds for all instances. -/

/-- A JavaScript number in the parser: `none` models NaN. -/
abbrev JsQ := Option ℚ

/-- The abstract transcendental functions. -/
structure TransFns where
  powQ : ℚ → ℚ → ℚ
  cbrtQ : ℚ → ℚ
  sqrtQ : ℚ → ℚ
  cosQ : ℚ → ℚ
  sinQ : ℚ → ℚ
  atan2Q : ℚ → ℚ → ℚ
  piQ : ℚ
  fmtQ : JsQ → String

def jqAdd : JsQ → JsQ → JsQ
  | some a, some b => some (a + b)
  | _, _ => none

def jqSub : JsQ → JsQ → JsQ
  | some a, some b => some (a - b)
  | _, _ => none

def jqMul : JsQ → JsQ → JsQ
  | some a, some b => some (a * b)
  | _, _ => none

def jqDiv : JsQ → JsQ → JsQ
  | some a, some b => some (a / b)
  | _, _ => none

/-- `x <= t`: false when `x` is NaN. -/
def jqLeB (x : JsQ) (t : ℚ) : Bool :=
  match x with
  | some v => decide (v ≤ t)
  | none => false

/-- `x > t`: false when `x` is NaN. -/
def jqGtB (x : JsQ) (t : ℚ) : Bool :=
  match x with
  | some v => decide (t < v)
  | none => false

/-- `x < t`: false when `x` is NaN. -/
def jqLtB (x : JsQ) (t : ℚ) : Bool :=
  match x with
  | some v => decide (v < t)
  | none => false

/-- `x === y`: false when either is NaN. -/
def jqEqB : JsQ → JsQ → Bool
  | some a, some b => decide (a = b)
  | _, _ => false

/-- `Math.round` on a rational (half rounds up). -/
def qRound (q : ℚ) : ℚ := ((⌊q + 1/2⌋ : ℤ) : ℚ)

def jqRound : JsQ → JsQ := Option.map qRound

/-- `Math.max(a, b)` with constant second argument, NaN-propagating. -/
def jqMaxC (x : JsQ) (t : ℚ) : JsQ := x.map (fun v => max v t)

def jqMinC (x : JsQ) (t : ℚ) : JsQ := x.map (fun v => min v t)

/-- `Math.max` on two JavaScript numbers. -/
def jqMax : JsQ → JsQ → JsQ
  | some a, some b => some (max a b)
  | _, _ => none

def jqMin : JsQ → JsQ → JsQ
  | some a, some b => some (min a b)
  | _, _ => none

/-- Truncation toward zero, as JavaScript `%` uses. -/
def qTrunc (q : ℚ) : ℤ := if 0 ≤ q then ⌊q⌋ else ⌈q⌉

/-- JavaScript `a % b`. -/
def qMod (a b : ℚ) : ℚ := a - b * ((qTrunc (a / b) : ℤ) : ℚ)

def jqMod (x : JsQ) (b : ℚ) : JsQ := x.map (fun v => qMod v b)

/-- The parser's `RgbColor` value: channels may be NaN; the alpha field may
be absent, and present alpha may itself be NaN. -/
structure Rgb where
  r : JsQ
  g : JsQ
  b : JsQ
  a : Option JsQ := none
  deriving DecidableEq

/-- `clampByte(v) = Math.round(Math.min(255, Math.max(0, v)))`. -/
def clampByte (v : JsQ) : JsQ := jqRound (jqMinC (jqMaxC v 0) 255)

/-- `srgbToLinear(c)`: threshold 0.04045, exponent 2.4 via `Math.pow`. -/
def srgbToLinear (T : TransFns) (c : ℚ) : ℚ :=
  if c ≤ 0.04045 then c / 12.92 else T.powQ ((c + 0.055) / 1.055) 2.4

def jqSrgbToLinear (T : TransFns) : JsQ → JsQ := Option.map (srgbToLinear T)

/-- `linearToSrgb(c)`: threshold 0.0031308, exponent 1/2.4 via `Math.pow`. -/
def linearToSrgb (T : TransFns) (c : ℚ) : ℚ :=
  if c ≤ 0.0031308 then 12.92 * c else 1.055 * T.powQ c (1 / 2.4) - 0.055

def jqLinearToSrgb (T : TransFns) : JsQ → JsQ := Option.map (linearToSrgb T)

/-- `str.startsWith(pre)`. -/
def strStartsWith (s pre : String) : Bool := listStartsWith pre.toList s.toList

/-- A `[\d.]` character. -/
def isDigitOrDot (c : Char) : Bool := c.isDigit || c = '.'

/-- JavaScript `parseFloat` on a token drawn from `[\d.]+`: NaN exactly when
no prefix is a decimal literal, that is when the token is `.` or starts with
two dots. -/
def parseFloatDots (tok : List Char) : JsQ :=
  match tok with
  | c :: _ =>
      if c.isDigit then
        let (d, r) := spanDigits tok
        match r with
        | '.' :: r2 =>
            let (f, _) := spanDigits r2
            some (decValue d f)
        | _ => some (decValue d [])
      else
        -- the token starts with a dot
        match tok with
        | _ :: c2 :: r2 =>
            if c2.isDigit then
              let (f, _) := spanDigits (c2 :: r2)
              some (decValue [] f)
            else none
        | _ => none
  | [] => none

def hexDigitVal (c : Char) : Option ℕ :=
  if c.isDigit then some (c.toNat - 48)
  else if 'a' ≤ c ∧ c ≤ 'f' then some (c.toNat - 87)
  else if 'A' ≤ c ∧ c ≤ 'F' then some (c.toNat - 55)
  else none

def hexPrefixVal : List Char → Option ℕ → Option ℕ
  | [], acc => acc
  | c :: rest, acc =>
      match hexDigitVal c with
      | some d => hexPrefixVal rest (some ((acc.getD 0) * 16 + d))
      | none => acc

/-- The optional `0x`/`0X` prefix of `parseInt(s, 16)`. -/
def strip0x : List Char → List Char
  | '0' :: x :: r => if x = 'x' ∨ x = 'X' then r else '0' :: x :: r
  | body => body

/-- JavaScript `parseInt(s, 16)`: leading whitespace, optional sign, an
optional `0x`/`0X` prefix, then the longest run of hex digits; none gives
NaN. -/
def parseIntHex (cs : List Char) : Option ℤ :=
  let cs := cs.dropWhile Char.isWhitespace
  let signed : List Char → Bool → Option ℤ := fun body neg =>
    match hexPrefixVal (strip0x body) none with
    | some n => some (if neg then -(n : ℤ) else (n : ℤ))
    | none => none
  match cs with
  | '-' :: r => signed r true
  | '+' :: r => signed r false
  | r => signed r false

/-- `hex.replace('#', '')`: only the first `#` is removed. -/
def removeFirstHash : List Char → List Char
  | [] => []
  | '#' :: rest => rest
  | c :: rest => c :: removeFirstHash rest

/-- The channel extraction of `parseHex` on the already-expanded digit
list: two hex digits per channel; an 8-digit value adds `parseInt(..)/255`
as alpha without a NaN check. -/
def parseHexCore (h : List Char) : Option Rgb :=
  if h.length ≠ 6 ∧ h.length ≠ 8 then none
  else
    match parseIntHex (h.take 2), parseIntHex ((h.drop 2).take 2),
        parseIntHex ((h.drop 4).take 2) with
    | some r, some g, some b =>
        if h.length = 8 then
          some { r := some (r : ℚ), g := some (g : ℚ), b := some (b : ℚ),
                 a := some ((parseIntHex ((h.drop 6).take 2)).map fun n => (n : ℚ) / 255) }
        else some { r := some (r : ℚ), g := some (g : ℚ), b := some (b : ℚ) }
    | _, _, _ => none

/-- `parseHex(hex)`: the first `#` removed, 3- or 4-digit shorthand doubled,
then the channel extraction above. -/
def parseHex (hex : String) : Option Rgb :=
  let h0 := removeFirstHash hex.toList
  parseHexCore
    (if h0.length = 3 ∨ h0.length = 4 then (h0.map fun c => [c, c]).flatten else h0)

/-- A number token `-?\d{1,3}(?:\.\d+)?` (`signed` allows the minus): any
longer digit run, or a dot with no digit after it, fails the whole match at
this position, as the surrounding pattern admits no other split. -/
def scanNum3 (signed : Bool) (cs : List Char) : Option (ℚ × List Char) :=
  let scanBody : List Char → Bool → Option (ℚ × List Char) := fun cs neg =>
    let (d, r) := spanDigits cs
    if d.isEmpty ∨ 3 < d.length then none
    else
      match r with
      | '.' :: r2 =>
          let (f, r3) := spanDigits r2
          if f.isEmpty then none
          else some ((if neg then -decValue d f else decValue d f), r3)
      | _ => some ((if neg then -decValue d [] else decValue d []), r)
  match cs with
  | '-' :: r => if signed then scanBody r true else none
  | r => scanBody r false

/-- An alpha token `-?\d+(?:\.\d+)?%?` followed by `parseAlphaValue`: a
percentage divides by 100. The value is unclamped. -/
def scanAlpha (cs : List Char) : Option (ℚ × List Char) :=
  let scanBody : List Char → Bool → Option (ℚ × List Char) := fun cs neg =>
    let (d, r) := spanDigits cs
    if d.isEmpty then none
    else
      let core : ℚ × List Char :=
        match r with
        | '.' :: r2 =>
            let (f, r3) := spanDigits r2
            if f.isEmpty then (decValue d [], '.' :: r2) else (decValue d f, r3)
        | _ => (decValue d [], r)
      let v := if neg then -core.1 else core.1
      match core.2 with
      | '%' :: r4 => some (v / 100, r4)
      | r4 => some (v, r4)
  match cs with
  | '-' :: r => scanBody r true
  | r => scanBody r false

/-- The separator `\s*[,\s]\s*`: optional whitespace, a comma or one more
whitespace character, optional whitespace. -/
def scanSepComma (cs : List Char) : Option (List Char) :=
  let after := cs.dropWhile Char.isWhitespace
  match after with
  | ',' :: r => some (r.dropWhile Char.isWhitespace)
  | _ => if after.length < cs.length then some after else none

/-- The optional alpha tail `(?:\s*[,/]\s*(alpha))?\s*\)` of `rgb()`/`hsl()`:
returns the parsed alpha (if present) once the closing parenthesis is
reached. -/
def scanAlphaClose (cs : List Char) : Option (Option ℚ) :=
  let after := cs.dropWhile Char.isWhitespace
  match after with
  | ',' :: r =>
      match scanAlpha (r.dropWhile Char.isWhitespace) with
      | some (v, r2) =>
          match r2.dropWhile Char.isWhitespace with
          | ')' :: _ => some (some v)
          | _ => none
      | none => none
  | '/' :: r =>
      match scanAlpha (r.dropWhile Char.isWhitespace) with
      | some (v, r2) =>
          match r2.dropWhile Char.isWhitespace with
          | ')' :: _ => some (some v)
          | _ => none
      | none => none
  | ')' :: _ => some none
  | _ => none

/-- A match of the `parseRgb` pattern starting exactly here (after the
`rgba?\(` head). -/
def scanRgbTail (cs : List Char) : Option Rgb :=
  match scanNum3 true (cs.dropWhile Char.isWhitespace) with
  | none => none
  | some (v1, r1) =>
      match scanSepComma r1 with
      | none => none
      | some r2 =>
          match scanNum3 true r2 with
          | none => none
          | some (v2, r3) =>
              match scanSepComma r3 with
              | none => none
              | some r4 =>
                  match scanNum3 true r4 with
                  | none => none
                  | some (v3, r5) =>
                      match scanAlphaClose r5 with
                      | none => none
                      | some al =>
                          let mk : ℚ → JsQ := fun v => clampByte (some v)
                          some { r := mk v1, g := mk v2, b := mk v3,
                                 a := al.map fun v => some v }

/-- The `rgba?\(` head at this position. -/
def rgbHead (cs : List Char) : Option (List Char) :=
  match cs with
  | 'r' :: 'g' :: 'b' :: 'a' :: '(' :: r => some r
  | 'r' :: 'g' :: 'b' :: '(' :: r => some r
  | _ => none

/-- The unanchored regex search of `parseRgb`: the first position whose
suffix matches wins. -/
def findRgb : ℕ → List Char → Option Rgb
  | 0, _ => none
  | _ + 1, [] => none
  | f + 1, c :: rest =>
      match rgbHead (c :: rest) with
      | some tail =>
          match scanRgbTail tail with
          | some rgb => some rgb
          | none => findRgb f rest
      | none => findRgb f rest

/-- `parseRgb(value)`. -/
def parseRgb (value : String) : Option Rgb :=
  findRgb (value.length + 1) value.toList

/-- `hueToRgb(p, q, t)`. -/
def hueToRgb (p q t : ℚ) : ℚ :=
  let t1 := if t < 0 then t + 1 else t
  let t2 := if 1 < t1 then t1 - 1 else t1
  if t2 < 1/6 then p + (q - p) * 6 * t2
  else if t2 < 1/2 then q
  else if t2 < 2/3 then p + (q - p) * (2/3 - t2) * 6
  else p

/-- A percentage-bearing hsl component `(\d{1,3}(?:\.\d+)?)%`. -/
def scanNumPct (cs : List Char) : Option (ℚ × List Char) :=
  match scanNum3 false cs with
  | some (v, '%' :: r) => some (v, r)
  | _ => none

/-- A match of the `parseHsl` pattern after the `hsla?\(` head. -/
def scanHslTail (cs : List Char) : Option Rgb :=
  match scanNum3 false (cs.dropWhile Char.isWhitespace) with
  | none => none
  | some (hv, r1) =>
      match scanSepComma r1 with
      | none => none
      | some r2 =>
          match scanNumPct r2 with
          | none => none
          | some (sv, r3) =>
              match scanSepComma r3 with
              | none => none
              | some r4 =>
                  match scanNumPct r4 with
                  | none => none
                  | some (lv, r5) =>
                      match scanAlphaClose r5 with
                      | none => none
                      | some al =>
                          let h := hv / 360
                          let s := sv / 100
                          let l := lv / 100
                          if s = 0 then
                            let gray := qRound (l * 255)
                            some { r := some gray, g := some gray, b := some gray,
                                   a := al.map fun v => some v }
                          else
                            let q := if l < 1/2 then l * (1 + s) else l + s - l * s
                            let p := 2 * l - q
                            some { r := some (qRound (hueToRgb p q (h + 1/3) * 255)),
                                   g := some (qRound (hueToRgb p q h * 255)),
                                   b := some (qRound (hueToRgb p q (h - 1/3) * 255)),
                                   a := al.map fun v => some v }

def hslHead (cs : List Char) : Option (List Char) :=
  match cs with
  | 'h' :: 's' :: 'l' :: 'a' :: '(' :: r => some r
  | 'h' :: 's' :: 'l' :: '(' :: r => some r
  | _ => none

def findHsl : ℕ → List Char → Option Rgb
  | 0, _ => none
  | _ + 1, [] => none
  | f + 1, c :: rest =>
      match hslHead (c :: rest) with
      | some tail =>
          match scanHslTail tail with
          | some rgb => some rgb
          | none => findHsl f rest
      | none => findHsl f rest

/-- `parseHsl(value)`. -/
def parseHsl (value : String) : Option Rgb :=
  findHsl (value.length + 1) value.toList


/-- The `NAMED_COLORS` table. -/
def namedColors : List (String × String) :=
  [("aliceblue", "#f0f8ff"), ("antiquewhite", "#faebd7"), ("aqua", "#00ffff"),
   ("aquamarine", "#7fffd4"), ("azure", "#f0ffff"), ("beige", "#f5f5dc"),
   ("bisque", "#ffe4c4"), ("black", "#000000"), ("blanchedalmond", "#ffebcd"),
   ("blue", "#0000ff"), ("blueviolet", "#8a2be2"), ("brown", "#a52a2a"),
   ("burlywood", "#deb887"), ("cadetblue", "#5f9ea0"), ("chartreuse", "#7fff00"),
   ("chocolate", "#d2691e"), ("coral", "#ff7f50"), ("cornflowerblue", "#6495ed"),
   ("cornsilk", "#fff8dc"), ("crimson", "#dc143c"), ("cyan", "#00ffff"),
   ("darkblue", "#00008b"), ("darkcyan", "#008b8b"), ("darkgoldenrod", "#b8860b"),
   ("darkgray", "#a9a9a9"), ("darkgreen", "#006400"), ("darkgrey", "#a9a9a9"),
   ("darkkhaki", "#bdb76b"), ("darkmagenta", "#8b008b"), ("darkolivegreen", "#556b2f"),
   ("darkorange", "#ff8c00"), ("darkorchid", "#9932cc"), ("darkred", "#8b0000"),
   ("darksalmon", "#e9967a"), ("darkseagreen", "#8fbc8f"), ("darkslateblue", "#483d8b"),
   ("darkslategray", "#2f4f4f"), ("darkslategrey", "#2f4f4f"), ("darkturquoise", "#00ced1"),
   ("darkviolet", "#9400d3"), ("deeppink", "#ff1493"), ("deepskyblue", "#00bfff"),
   ("dimgray", "#696969"), ("dimgrey", "#696969"), ("dodgerblue", "#1e90ff"),
   ("firebrick", "#b22222"), ("floralwhite", "#fffaf0"), ("forestgreen", "#228b22"),
   ("fuchsia", "#ff00ff"), ("gainsboro", "#dcdcdc"), ("ghostwhite", "#f8f8ff"),
   ("gold", "#ffd700"), ("goldenrod", "#daa520"), ("gray", "#808080"),
   ("green", "#008000"), ("greenyellow", "#adff2f"), ("grey", "#808080"),
   ("honeydew", "#f0fff0"), ("hotpink", "#ff69b4"), ("indianred", "#cd5c5c"),
   ("indigo", "#4b0082"), ("ivory", "#fffff0"), ("khaki", "#f0e68c"),
   ("lavender", "#e6e6fa"), ("lavenderblush", "#fff0f5"), ("lawngreen", "#7cfc00"),
   ("lemonchiffon", "#fffacd"), ("lightblue", "#add8e6"), ("lightcoral", "#f08080"),
   ("lightcyan", "#e0ffff"), ("lightgoldenrodyellow", "#fafad2"), ("lightgray", "#d3d3d3"),
   ("lightgreen", "#90ee90"), ("lightgrey", "#d3d3d3"), ("lightpink", "#ffb6c1"),
   ("lightsalmon", "#ffa07a"), ("lightseagreen", "#20b2aa"), ("lightskyblue", "#87cefa"),
   ("lightslategray", "#778899"), ("lightslategrey", "#778899"), ("lightsteelblue", "#b0c4de"),
   ("lightyellow", "#ffffe0"), ("lime", "#00ff00"), ("limegreen", "#32cd32"),
   ("linen", "#faf0e6"), ("magenta", "#ff00ff"), ("maroon", "#800000"),
   ("mediumaquamarine", "#66cdaa"), ("mediumblue", "#0000cd"), ("mediumorchid", "#ba55d3"),
   ("mediumpurple", "#9370db"), ("mediumseagreen", "#3cb371"), ("mediumslateblue", "#7b68ee"),
   ("mediumspringgreen", "#00fa9a"), ("mediumturquoise", "#48d1cc"), ("mediumvioletred", "#c71585"),
   ("midnightblue", "#191970"), ("mintcream", "#f5fffa"), ("mistyrose", "#ffe4e1"),
   ("moccasin", "#ffe4b5"), ("navajowhite", "#ffdead"), ("navy", "#000080"),
   ("oldlace", "#fdf5e6"), ("olive", "#808000"), ("olivedrab", "#6b8e23"),
   ("orange", "#ffa500"), ("orangered", "#ff4500"), ("orchid", "#da70d6"),
   ("palegoldenrod", "#eee8aa"), ("palegreen", "#98fb98"), ("paleturquoise", "#afeeee"),
   ("palevioletred", "#db7093"), ("papayawhip", "#ffefd5"), ("peachpuff", "#ffdab9"),
   ("peru", "#cd853f"), ("pink", "#ffc0cb"), ("plum", "#dda0dd"),
   ("powderblue", "#b0e0e6"), ("purple", "#800080"), ("rebeccapurple", "#663399"),
   ("red", "#ff0000"), ("rosybrown", "#bc8f8f"), ("royalblue", "#4169e1"),
   ("saddlebrown", "#8b4513"), ("salmon", "#fa8072"), ("sandybrown", "#f4a460"),
   ("seagreen", "#2e8b57"), ("seashell", "#fff5ee"), ("sienna", "#a0522d"),
   ("silver", "#c0c0c0"), ("skyblue", "#87ceeb"), ("slateblue", "#6a5acd"),
   ("slategray", "#708090"), ("slategrey", "#708090"), ("snow", "#fffafa"),
   ("springgreen", "#00ff7f"), ("steelblue", "#4682b4"), ("tan", "#d2b48c"),
   ("teal", "#008080"), ("thistle", "#d8bfd8"), ("tomato", "#ff6347"),
   ("turquoise", "#40e0d0"), ("violet", "#ee82ee"), ("wheat", "#f5deb3"),
   ("white", "#ffffff"), ("whitesmoke", "#f5f5f5"), ("yellow", "#ffff00"),
   ("yellowgreen", "#9acd32")]

/-- `NAMED_COLORS[trimmed]` as a plain table lookup. (In JavaScript the
bracket access also reaches `Object.prototype` for the keys `constructor`
and `__proto__`, where the code then throws; those two inputs are outside
this model.) -/
def namedLookup (s : String) : Option String :=
  namedColors.lookup s

/-- Consume a literal. -/
def dropLit : List Char → List Char → Option (List Char)
  | [], cs => some cs
  | _ :: _, [] => none
  | l :: ls, c :: cs => if c = l then dropLit ls cs else none

/-- A generic unanchored search: the first position whose suffix carries the
head literal and then a full tail match wins. -/
def findTail {A : Type} (head : List Char → Option (List Char))
    (tail : List Char → Option A) : ℕ → List Char → Option A
  | 0, _ => none
  | _ + 1, [] => none
  | f + 1, c :: rest =>
      match head (c :: rest) with
      | some t =>
          match tail t with
          | some a => some a
          | none => findTail head tail f rest
      | none => findTail head tail f rest

/-- A signed number token `-?\d+(?:\.\d+)?`: a dot with no digit after it is
left in the remainder (the following pattern piece then fails on it, as in
the regex). -/
def scanNumTok (cs : List Char) : Option (ℚ × List Char) :=
  let body : List Char → Bool → Option (ℚ × List Char) := fun cs neg =>
    let (d, r) := spanDigits cs
    if d.isEmpty then none
    else
      let core : ℚ × List Char :=
        match r with
        | '.' :: r2 =>
            let (f, r3) := spanDigits r2
            if f.isEmpty then (decValue d [], '.' :: r2) else (decValue d f, r3)
        | _ => (decValue d [], r)
      some ((if neg then -core.1 else core.1), core.2)
  match cs with
  | '-' :: r => body r true
  | r => body r false

/-- A component token `-?\d+(?:\.\d+)?%?`: value and percent flag. -/
def scanComp (cs : List Char) : Option (ℚ × Bool × List Char) :=
  match scanNumTok cs with
  | some (v, '%' :: r) => some (v, true, r)
  | some (v, r) => some (v, false, r)
  | none => none

/-- A hue token `-?\d+(?:\.\d+)?(?:deg|rad|grad|turn)?`. -/
def scanHueTok (cs : List Char) : Option (ℚ × Option String × List Char) :=
  match scanNumTok cs with
  | none => none
  | some (v, r) =>
      match dropLit "deg".toList r with
      | some r2 => some (v, some "deg", r2)
      | none =>
          match dropLit "rad".toList r with
          | some r2 => some (v, some "rad", r2)
          | none =>
              match dropLit "grad".toList r with
              | some r2 => some (v, some "grad", r2)
              | none =>
                  match dropLit "turn".toList r with
                  | some r2 => some (v, some "turn", r2)
                  | none => some (v, none, r)

/-- `parseAngle` unit handling: `rad` scales by `180/Math.PI`, `grad` by 0.9,
`turn` by 360, `deg` or no unit is taken as given. -/
def angleVal (T : TransFns) (v : ℚ) (u : Option String) : ℚ :=
  match u with
  | some "rad" => v * (180 / T.piQ)
  | some "grad" => v * (9 / 10)
  | some "turn" => v * 360
  | _ => v

/-- At least one whitespace character, then the rest. -/
def reqWs (cs : List Char) : Option (List Char) :=
  let r := cs.dropWhile Char.isWhitespace
  if r.length < cs.length then some r else none

/-- The closing `(?:\s*\/\s*(-?\d+(?:\.\d+)?%?))?\s*\)` of the modern
color functions; a percent alpha divides by 100 (`parseAlphaValue`). -/
def scanSlashClose (cs : List Char) : Option (Option ℚ) :=
  let after := cs.dropWhile Char.isWhitespace
  match after with
  | '/' :: r =>
      match scanComp (r.dropWhile Char.isWhitespace) with
      | some (v, pct, r2) =>
          match r2.dropWhile Char.isWhitespace with
          | ')' :: _ => some (some (if pct then v / 100 else v))
          | _ => none
      | none => none
  | ')' :: _ => some none
  | _ => none

def labXN : ℚ := 0.95047
def labZN : ℚ := 1.08883
def labE : ℚ := 0.008856
def labK : ℚ := 903.3

def jqPow (T : TransFns) (x : JsQ) (e : ℚ) : JsQ := x.map (fun v => T.powQ v e)

def jqCbrt (T : TransFns) (x : JsQ) : JsQ := x.map T.cbrtQ

def jqSqrt (T : TransFns) (x : JsQ) : JsQ := x.map T.sqrtQ

def jqCos (T : TransFns) (x : JsQ) : JsQ := x.map T.cosQ

def jqSin (T : TransFns) (x : JsQ) : JsQ := x.map T.sinQ

def jqAtan2 (T : TransFns) : JsQ → JsQ → JsQ
  | some y, some x => some (T.atan2Q y x)
  | _, _ => none

/-- `oklabToRgb(L, a, b)` (Bjorn Ottosson's matrices), channels clamped. -/
def oklabToRgb (T : TransFns) (L a b : JsQ) : Rgb :=
  let lp := jqAdd (jqAdd L (jqMul (some 0.3963377774) a)) (jqMul (some 0.2158037573) b)
  let mp := jqSub (jqSub L (jqMul (some 0.1055613458) a)) (jqMul (some 0.0638541728) b)
  let sp := jqSub (jqSub L (jqMul (some 0.0894841775) a)) (jqMul (some 1.2914855480) b)
  let l := jqMul (jqMul lp lp) lp
  let m := jqMul (jqMul mp mp) mp
  let s := jqMul (jqMul sp sp) sp
  let rLin := jqAdd (jqSub (jqMul (some 4.0767416621) l) (jqMul (some 3.3077115913) m))
    (jqMul (some 0.2309699292) s)
  let gLin := jqSub (jqAdd (jqMul (some (-1.2684380046)) l) (jqMul (some 2.6097574011) m))
    (jqMul (some 0.3413193965) s)
  let bLin := jqAdd (jqSub (jqMul (some (-0.0041960863)) l) (jqMul (some 0.7034186147) m))
    (jqMul (some 1.7076147010) s)
  { r := clampByte (jqMul (jqLinearToSrgb T rLin) (some 255))
    g := clampByte (jqMul (jqLinearToSrgb T gLin) (some 255))
    b := clampByte (jqMul (jqLinearToSrgb T bLin) (some 255)) }

/-- `labToRgb(L, a, b)`: CIE Lab to XYZ (D65) to linear sRGB to sRGB. -/
def labToRgb (T : TransFns) (L a b : JsQ) : Rgb :=
  let fy := jqDiv (jqAdd L (some 16)) (some 116)
  let fx := jqAdd (jqDiv a (some 500)) fy
  let fz := jqSub fy (jqDiv b (some 200))
  let fx3 := jqMul (jqMul fx fx) fx
  let fz3 := jqMul (jqMul fz fz) fz
  let x := jqMul (if jqGtB fx3 labE then fx3
    else jqDiv (jqSub (jqMul (some 116) fx) (some 16)) (some labK)) (some labXN)
  let y := if jqGtB L (labK * labE) then jqPow T (jqDiv (jqAdd L (some 16)) (some 116)) 3
    else jqDiv L (some labK)
  let z := jqMul (if jqGtB fz3 labE then fz3
    else jqDiv (jqSub (jqMul (some 116) fz) (some 16)) (some labK)) (some labZN)
  let rLin := jqSub (jqSub (jqMul (some 3.2404542) x) (jqMul (some 1.5371385) y))
    (jqMul (some 0.4985314) z)
  let gLin := jqAdd (jqAdd (jqMul (some (-0.9692660)) x) (jqMul (some 1.8760108) y))
    (jqMul (some 0.0415560) z)
  let bLin := jqAdd (jqSub (jqMul (some 0.0556434) x) (jqMul (some 0.2040259) y))
    (jqMul (some 1.0572252) z)
  { r := clampByte (jqMul (jqLinearToSrgb T rLin) (some 255))
    g := clampByte (jqMul (jqLinearToSrgb T gLin) (some 255))
    b := clampByte (jqMul (jqLinearToSrgb T bLin) (some 255)) }

/-- `rgbToOklab(rgb)`. -/
def rgbToOklab (T : TransFns) (c : Rgb) : JsQ × JsQ × JsQ :=
  let r := jqSrgbToLinear T (jqDiv c.r (some 255))
  let g := jqSrgbToLinear T (jqDiv c.g (some 255))
  let b := jqSrgbToLinear T (jqDiv c.b (some 255))
  let lp := jqCbrt T (jqAdd (jqAdd (jqMul (some 0.4122214708) r) (jqMul (some 0.5363325363) g))
    (jqMul (some 0.0514459929) b))
  let mp := jqCbrt T (jqAdd (jqAdd (jqMul (some 0.2119034982) r) (jqMul (some 0.6806995451) g))
    (jqMul (some 0.1073969566) b))
  let sp := jqCbrt T (jqAdd (jqAdd (jqMul (some 0.0883024619) r) (jqMul (some 0.2817188376) g))
    (jqMul (some 0.6299787005) b))
  (jqSub (jqAdd (jqMul (some 0.2104542553) lp) (jqMul (some 0.7936177850) mp))
    (jqMul (some 0.0040720468) sp),
   jqAdd (jqSub (jqMul (some 1.9779984951) lp) (jqMul (some 2.4285922050) mp))
    (jqMul (some 0.4505937099) sp),
   jqSub (jqAdd (jqMul (some 0.0259040371) lp) (jqMul (some 0.7827717662) mp))
    (jqMul (some 0.8086757660) sp))

/-- `rgbToLab(rgb)`. -/
def rgbToLab (T : TransFns) (c : Rgb) : JsQ × JsQ × JsQ :=
  let r := jqSrgbToLinear T (jqDiv c.r (some 255))
  let g := jqSrgbToLinear T (jqDiv c.g (some 255))
  let b := jqSrgbToLinear T (jqDiv c.b (some 255))
  let x0 := jqDiv (jqAdd (jqAdd (jqMul (some 0.4124564) r) (jqMul (some 0.3575761) g))
    (jqMul (some 0.1804375) b)) (some labXN)
  let y0 := jqAdd (jqAdd (jqMul (some 0.2126729) r) (jqMul (some 0.7151522) g))
    (jqMul (some 0.0721750) b)
  let z0 := jqDiv (jqAdd (jqAdd (jqMul (some 0.0193339) r) (jqMul (some 0.1191920) g))
    (jqMul (some 0.9503041) b)) (some labZN)
  let f : JsQ → JsQ := fun t =>
    if jqGtB t labE then jqCbrt T t
    else jqDiv (jqAdd (jqMul (some labK) t) (some 16)) (some 116)
  let x := f x0
  let y := f y0
  let z := f z0
  (jqSub (jqMul (some 116) y) (some 16),
   jqMul (some 500) (jqSub x y),
   jqMul (some 200) (jqSub y z))

/-- `a < b` on JavaScript numbers: false when either is NaN. -/
def jqLt : JsQ → JsQ → Bool
  | some a, some b => decide (a < b)
  | _, _ => false

/-- `rgbToHsl(rgb)`: h in degrees, s and l in percent. -/
def rgbToHsl (c : Rgb) : JsQ × JsQ × JsQ :=
  let r := jqDiv c.r (some 255)
  let g := jqDiv c.g (some 255)
  let b := jqDiv c.b (some 255)
  let mx := jqMax (jqMax r g) b
  let mn := jqMin (jqMin r g) b
  let l := jqDiv (jqAdd mx mn) (some 2)
  if jqEqB mx mn then (some 0, some 0, l)
  else
    let d := jqSub mx mn
    let s := if jqGtB l (1/2) then jqDiv d (jqSub (jqSub (some 2) mx) mn)
      else jqDiv d (jqAdd mx mn)
    let h :=
      if jqEqB mx r then
        jqDiv (jqAdd (jqDiv (jqSub g b) d)
          (if jqLt g b then some 6 else some 0)) (some 6)
      else if jqEqB mx g then
        jqDiv (jqAdd (jqDiv (jqSub b r) d) (some 2)) (some 6)
      else
        jqDiv (jqAdd (jqDiv (jqSub r g) d) (some 4)) (some 6)
    (jqMul h (some 360), jqMul s (some 100), jqMul l (some 100))

/-- `lerpAngleRad(a, b, t)`. -/
def lerpAngleRad (T : TransFns) (a b t : JsQ) : JsQ :=
  let diff := jqSub b a
  let diff :=
    if jqGtB diff T.piQ then jqSub diff (some (2 * T.piQ))
    else if jqLtB diff (-T.piQ) then jqAdd diff (some (2 * T.piQ))
    else diff
  jqAdd a (jqMul diff t)

/-- `lerpAngleDeg(a, b, t)`. -/
def lerpAngleDeg (a b t : JsQ) : JsQ :=
  let diff := jqSub b a
  let diff :=
    if jqGtB diff 180 then jqSub diff (some 360)
    else if jqLtB diff (-180) then jqAdd diff (some 360)
    else diff
  jqAdd a (jqMul diff t)

/-- `splitTopLevel(str)`: split at commas outside parentheses, each part
trimmed; the depth counter is an integer, as in the source. -/
def splitTopGo : ℕ → ℤ → List Char → List Char → List String
  | 0, _, cur, _ => [String.mk (trimChars cur.reverse)]
  | _ + 1, _, cur, [] => [String.mk (trimChars cur.reverse)]
  | f + 1, depth, cur, c :: rest =>
      if c = '(' then splitTopGo f (depth + 1) (c :: cur) rest
      else if c = ')' then splitTopGo f (depth - 1) (c :: cur) rest
      else if c = ',' ∧ depth = 0 then
        String.mk (trimChars cur.reverse) :: splitTopGo f depth [] rest
      else splitTopGo f depth (c :: cur) rest

def splitTopLevel (s : String) : List String :=
  splitTopGo (s.length + 1) 0 [] s.toList

/-- The percent search of `parseColorMixArg`: the first index carrying
`\s+([\d.]+)%\s*$` wins; returns the index and the captured token. -/
def findPctIdx : ℕ → ℕ → List Char → Option (ℕ × List Char)
  | 0, _, _ => none
  | _ + 1, _, [] => none
  | f + 1, i, c :: rest =>
      (if c.isWhitespace then
        let afterWs := (c :: rest).dropWhile Char.isWhitespace
        let (tok, r2) := afterWs.span isDigitOrDot
        match tok, r2 with
        | _ :: _, '%' :: r3 =>
            if r3.all Char.isWhitespace then some (i, tok) else none
        | _, _ => none
      else none).orElse
        (fun _ => findPctIdx f (i + 1) rest)

/-- `resolveMixPcts`: the percentage-resolution branch of `parseColorMix`
(both omitted, one given, both given). -/
def resolveMixPcts : Option JsQ → Option JsQ → JsQ × JsQ
  | none, none => (some 50, some 50)
  | some p, none => (p, jqSub (some 100) p)
  | none, some p => (jqSub (some 100) p, p)
  | some p, some q => (p, q)

/-- `^in\s+(\S+)$` on the first color-mix part. -/
def scanInSpace (p : String) : Option String :=
  match p.toList with
  | 'i' :: 'n' :: rest =>
      let r1 := rest.dropWhile Char.isWhitespace
      if r1.length < rest.length ∧ ¬ r1.isEmpty ∧ r1.all (fun c => !c.isWhitespace) then
        some (String.mk r1)
      else none
  | _ => none

mutual

/-- `parseColor(value)`, fuel-indexed for the color-mix recursion. The fuel
always suffices for the entry point `parseColorTop` below. -/
def parseColor (T : TransFns) : ℕ → String → Option Rgb
  | 0, _ => none
  | fuel + 1, value =>
      let trimmed := jsLower (jsTrim value)
      if trimmed = "transparent" then none
      else
        match namedLookup trimmed with
        | some hex => parseHex hex
        | none =>
            if strStartsWith trimmed "#" then parseHex trimmed
            else if strStartsWith trimmed "rgb" then parseRgb trimmed
            else if strStartsWith trimmed "hsl" then parseHsl trimmed
            else if strStartsWith trimmed "oklch" then parseOklch T trimmed
            else if strStartsWith trimmed "oklab" then parseOklab T trimmed
            else if strStartsWith trimmed "lch" then parseCieLch T trimmed
            else if strStartsWith trimmed "lab" then parseCieLab T trimmed
            else if strStartsWith trimmed "color-mix(" then parseColorMix T fuel trimmed
            else none

/-- `parseColorMix(value)`: the `^color-mix\(\s*(.+)\s*\)$` capture is the
text between `color-mix(` and the final `)` (its surrounding whitespace is
immaterial, every part is trimmed by `splitTopLevel`). -/
def parseColorMix (T : TransFns) : ℕ → String → Option Rgb
  | 0, _ => none
  | fuel + 1, value =>
      let cs := value.toList
      if strStartsWith value "color-mix(" = false then none
      else
        match cs.getLast? with
        | some ')' =>
            let core := (cs.drop 10).dropLast
            match splitTopLevel (String.mk core) with
            | [p0, p1, p2] =>
                match scanInSpace p0 with
                | none => none
                | some colorSpace =>
                    match parseColorMixArg T fuel p1, parseColorMixArg T fuel p2 with
                    | some a1, some a2 =>
                        let (q1, q2) := resolveMixPcts a1.2 a2.2
                        let sum := jqAdd q1 q2
                        if jqLeB sum 0 then none
                        else
                          mixInSpace T fuel colorSpace a1.1 a2.1
                            (jqDiv q1 sum) (jqDiv q2 sum)
                    | _, _ => none
            | _ => none
        | _ => none

/-- `parseColorMixArg(arg)`: an optional trailing percent (whose token can
parse to NaN), then the color text through `parseColor`. -/
def parseColorMixArg (T : TransFns) : ℕ → String → Option (Rgb × Option JsQ)
  | 0, _ => none
  | fuel + 1, arg =>
      match findPctIdx (arg.length + 1) 0 arg.toList with
      | some (i, tok) =>
          match parseColor T fuel (jsTrim (String.mk (arg.toList.take i))) with
          | none => none
          | some color => some (color, some (parseFloatDots tok))
      | none =>
          match parseColor T fuel (jsTrim arg) with
          | none => none
          | some color => some (color, none)

/-- The `switch (colorSpace)` of `parseColorMix`. The srgb branch rounds
without clamping; the hsl branch rebuilds an `hsl()` string with the
abstract number formatter and reparses it. -/
def mixInSpace (T : TransFns) : ℕ → String → Rgb → Rgb → JsQ → JsQ → Option Rgb
  | 0, _, _, _, _, _ => none
  | fuel + 1, colorSpace, c1, c2, w1, w2 =>
      if colorSpace = "srgb" then
        some { r := jqRound (jqAdd (jqMul c1.r w1) (jqMul c2.r w2))
               g := jqRound (jqAdd (jqMul c1.g w1) (jqMul c2.g w2))
               b := jqRound (jqAdd (jqMul c1.b w1) (jqMul c2.b w2)) }
      else if colorSpace = "srgb-linear" then
        let r1 := jqSrgbToLinear T (jqDiv c1.r (some 255))
        let g1 := jqSrgbToLinear T (jqDiv c1.g (some 255))
        let b1 := jqSrgbToLinear T (jqDiv c1.b (some 255))
        let r2 := jqSrgbToLinear T (jqDiv c2.r (some 255))
        let g2 := jqSrgbToLinear T (jqDiv c2.g (some 255))
        let b2 := jqSrgbToLinear T (jqDiv c2.b (some 255))
        some { r := clampByte (jqMul (jqLinearToSrgb T (jqAdd (jqMul r1 w1) (jqMul r2 w2))) (some 255))
               g := clampByte (jqMul (jqLinearToSrgb T (jqAdd (jqMul g1 w1) (jqMul g2 w2))) (some 255))
               b := clampByte (jqMul (jqLinearToSrgb T (jqAdd (jqMul b1 w1) (jqMul b2 w2))) (some 255)) }
      else if colorSpace = "oklab" then
        let (l1, a1, b1) := rgbToOklab T c1
        let (l2, a2, b2) := rgbToOklab T c2
        some (oklabToRgb T (jqAdd (jqMul l1 w1) (jqMul l2 w2))
          (jqAdd (jqMul a1 w1) (jqMul a2 w2)) (jqAdd (jqMul b1 w1) (jqMul b2 w2)))
      else if colorSpace = "oklch" then
        let (l1, a1, b1) := rgbToOklab T c1
        let (l2, a2, b2) := rgbToOklab T c2
        let cc1 := jqSqrt T (jqAdd (jqMul a1 a1) (jqMul b1 b1))
        let h1 := jqAtan2 T b1 a1
        let cc2 := jqSqrt T (jqAdd (jqMul a2 a2) (jqMul b2 b2))
        let h2 := jqAtan2 T b2 a2
        let l := jqAdd (jqMul l1 w1) (jqMul l2 w2)
        let cc := jqAdd (jqMul cc1 w1) (jqMul cc2 w2)
        let h := lerpAngleRad T h1 h2 w2
        some (oklabToRgb T l (jqMul cc (jqCos T h)) (jqMul cc (jqSin T h)))
      else if colorSpace = "lab" then
        let (l1, a1, b1) := rgbToLab T c1
        let (l2, a2, b2) := rgbToLab T c2
        some (labToRgb T (jqAdd (jqMul l1 w1) (jqMul l2 w2))
          (jqAdd (jqMul a1 w1) (jqMul a2 w2)) (jqAdd (jqMul b1 w1) (jqMul b2 w2)))
      else if colorSpace = "lch" then
        let (l1, a1, b1) := rgbToLab T c1
        let (l2, a2, b2) := rgbToLab T c2
        let cc1 := jqSqrt T (jqAdd (jqMul a1 a1) (jqMul b1 b1))
        let h1 := jqAtan2 T b1 a1
        let cc2 := jqSqrt T (jqAdd (jqMul a2 a2) (jqMul b2 b2))
        let h2 := jqAtan2 T b2 a2
        let l := jqAdd (jqMul l1 w1) (jqMul l2 w2)
        let cc := jqAdd (jqMul cc1 w1) (jqMul cc2 w2)
        let h := lerpAngleRad T h1 h2 w2
        some (labToRgb T l (jqMul cc (jqCos T h)) (jqMul cc (jqSin T h)))
      else if colorSpace = "hsl" then
        let (h1, s1, l1) := rgbToHsl c1
        let (h2, s2, l2) := rgbToHsl c2
        let h := jqMod (jqAdd (jqMod (lerpAngleDeg h1 h2 w2) 360) (some 360)) 360
        let s := jqAdd (jqMul s1 w1) (jqMul s2 w2)
        let l := jqAdd (jqMul l1 w1) (jqMul l2 w2)
        parseColor T fuel
          ("hsl(" ++ T.fmtQ h ++ ", " ++ T.fmtQ s ++ "%, " ++ T.fmtQ l ++ "%)")
      else none

/-- `parseOklab(value)`. -/
def parseOklab (T : TransFns) (value : String) : Option Rgb :=
  findTail (dropLit "oklab(".toList) (scanOklabTail T) (value.length + 1) value.toList

/-- Tail of the `oklab()` pattern: lightness accepts a percent of 1; the a
and b components read a percent as a fraction of 0.4. -/
def scanOklabTail (T : TransFns) (cs : List Char) : Option Rgb :=
  match scanComp (cs.dropWhile Char.isWhitespace) with
  | none => none
  | some (v1, pct1, r1) =>
      match reqWs r1 with
      | none => none
      | some r1w =>
          match scanComp r1w with
          | none => none
          | some (v2, pct2, r2) =>
              match reqWs r2 with
              | none => none
              | some r2w =>
                  match scanComp r2w with
                  | none => none
                  | some (v3, pct3, r3) =>
                      match scanSlashClose r3 with
                      | none => none
                      | some al =>
                          let L := if pct1 then v1 / 100 * 1 else v1
                          let a := if pct2 then v2 / 100 * 0.4 else v2
                          let b := if pct3 then v3 / 100 * 0.4 else v3
                          let base := oklabToRgb T (some L) (some a) (some b)
                          some { base with a := al.map fun v => some v }

/-- `parseOklch(value)`. -/
def parseOklch (T : TransFns) (value : String) : Option Rgb :=
  findTail (dropLit "oklch(".toList) (scanOklchTail T) (value.length + 1) value.toList

def scanOklchTail (T : TransFns) (cs : List Char) : Option Rgb :=
  match scanComp (cs.dropWhile Char.isWhitespace) with
  | none => none
  | some (v1, pct1, r1) =>
      match reqWs r1 with
      | none => none
      | some r1w =>
          match scanComp r1w with
          | none => none
          | some (v2, pct2, r2) =>
              match reqWs r2 with
              | none => none
              | some r2w =>
                  match scanHueTok r2w with
                  | none => none
                  | some (v3, u3, r3) =>
                      match scanSlashClose r3 with
                      | none => none
                      | some al =>
                          let L := if pct1 then v1 / 100 * 1 else v1
                          let C := if pct2 then v2 / 100 * 0.4 else v2
                          let H := angleVal T v3 u3
                          let hRad := H * (T.piQ / 180)
                          let a := C * T.cosQ hRad
                          let b := C * T.sinQ hRad
                          let base := oklabToRgb T (some L) (some a) (some b)
                          some { base with a := al.map fun v => some v }

/-- `parseCieLab(value)`: lab components 2 and 3 carry no percent. -/
def parseCieLab (T : TransFns) (value : String) : Option Rgb :=
  findTail (dropLit "lab(".toList) (scanCieLabTail T) (value.length + 1) value.toList

def scanCieLabTail (T : TransFns) (cs : List Char) : Option Rgb :=
  match scanComp (cs.dropWhile Char.isWhitespace) with
  | none => none
  | some (v1, pct1, r1) =>
      match reqWs r1 with
      | none => none
      | some r1w =>
          match scanNumTok r1w with
          | none => none
          | some (v2, r2) =>
              match reqWs r2 with
              | none => none
              | some r2w =>
                  match scanNumTok r2w with
                  | none => none
                  | some (v3, r3) =>
                      match scanSlashClose r3 with
                      | none => none
                      | some al =>
                          let L := if pct1 then v1 / 100 * 100 else v1
                          let base := labToRgb T (some L) (some v2) (some v3)
                          some { base with a := al.map fun v => some v }

/-- `parseCieLch(value)`. -/
def parseCieLch (T : TransFns) (value : String) : Option Rgb :=
  findTail (dropLit "lch(".toList) (scanCieLchTail T) (value.length + 1) value.toList

def scanCieLchTail (T : TransFns) (cs : List Char) : Option Rgb :=
  match scanComp (cs.dropWhile Char.isWhitespace) with
  | none => none
  | some (v1, pct1, r1) =>
      match reqWs r1 with
      | none => none
      | some r1w =>
          match scanNumTok r1w with
          | none => none
          | some (v2, r2) =>
              match reqWs r2 with
              | none => none
              | some r2w =>
                  match scanHueTok r2w with
                  | none => none
                  | some (v3, u3, r3) =>
                      match scanSlashClose r3 with
                      | none => none
                      | some al =>
                          let L := if pct1 then v1 / 100 * 100 else v1
                          let H := angleVal T v3 u3
                          let hRad := H * (T.piQ / 180)
                          let a := v2 * T.cosQ hRad
                          let b := v2 * T.sinQ hRad
                          let base := labToRgb T (some L) (some a) (some b)
                          some { base with a := al.map fun v => some v }

end

/-- The `parseColor` entry point: the fuel bound covers every possible
color-mix nesting (each level consumes at least eleven characters). -/
def parseColorTop (T : TransFns) (value : String) : Option Rgb :=
  parseColor T (value.length + 1) value

/-- A concrete transcendental instance (any instance settles the claims that
need one). -/
def T0 : TransFns :=
  { powQ := fun _ _ => 0, cbrtQ := fun _ => 0, sqrtQ := fun _ => 0,
    cosQ := fun _ => 0, sinQ := fun _ => 0, atan2Q := fun _ _ => 0,
    piQ := 0, fmtQ := fun _ => "" }

/-- The spec's percentage-resolution rule for color-mix, as worded: both
omitted is 50/50, one given as p makes the other 100−p, both given are
normalized to sum to 100, a non-positive sum fails. The pair returned is the
two weights as fractions of the normalized total. -/
def specMixWeights (p1? p2? : Option ℚ) : Option (ℚ × ℚ) :=
  let p :=
    match p1?, p2? with
    | none, none => ((50 : ℚ), (50 : ℚ))
    | some p, none => (p, 100 - p)
    | none, some p => (100 - p, p)
    | some p, some q => (p, q)
  if p.1 + p.2 ≤ 0 then none
  else some (p.1 / (p.1 + p.2), p.2 / (p.1 + p.2))

/-- A channel that is an integer or NaN. -/
def ChanInt (x : JsQ) : Prop := x = none ∨ ∃ n : ℤ, x = some (n : ℚ)

/-- A channel that is an integer within 0..255. -/
def ChanByte (x : JsQ) : Prop := ∃ n : ℤ, x = some (n : ℚ) ∧ 0 ≤ n ∧ n ≤ 255

def RgbInt (c : Rgb) : Prop := ChanInt c.r ∧ ChanInt c.g ∧ ChanInt c.b

def RgbByte (c : Rgb) : Prop := ChanByte c.r ∧ ChanByte c.g ∧ ChanByte c.b

/-- Decidable check that a channel is an integer within 0..255. -/
def isByteChanB (x : JsQ) : Bool :=
  match x with
  | some q => q.den = 1 && decide (0 ≤ q.num) && decide (q.num ≤ 255)
  | none => false

/-- Decidable check that a hex string parses to in-range opaque channels. -/
def hexOkB (hex : String) : Bool :=
  ((parseHex hex).map fun c =>
    isByteChanB c.r && isByteChanB c.g && isByteChanB c.b && decide (c.a = none)).getD false

/-- Every named color parses to in-range opaque channels. -/
def namedHexOkB : Bool :=
  namedColors.all fun p => hexOkB p.2

/-! ## `src/packages/astro-contrast/src/tailwind/tailwind-resolver.ts`

The default palette is imported from `default-palette.js`, which is not part
of `src/`; the palette lookup (`lookupPaletteColor`, direct names and
family-shade splitting included) is therefore an abstract parameter
`pal : String → Option String`. -/

/-- The `SKIP_UTILITIES` set. -/
def skipUtilities : List String :=
  ["text-left", "text-center", "text-right", "text-justify", "text-start", "text-end",
   "text-wrap", "text-nowrap", "text-balance", "text-pretty",
   "text-xs", "text-sm", "text-base", "text-lg", "text-xl",
   "text-2xl", "text-3xl", "text-4xl", "text-5xl", "text-6xl",
   "text-7xl", "text-8xl", "text-9xl",
   "text-ellipsis", "text-clip",
   "bg-fixed", "bg-local", "bg-scroll",
   "bg-auto", "bg-cover", "bg-contain",
   "bg-center", "bg-top", "bg-bottom", "bg-left", "bg-right",
   "bg-repeat", "bg-no-repeat", "bg-repeat-x", "bg-repeat-y", "bg-repeat-round",
   "bg-repeat-space",
   "bg-clip-border", "bg-clip-padding", "bg-clip-content", "bg-clip-text",
   "bg-origin-border", "bg-origin-padding", "bg-origin-content",
   "bg-none"]

/-- `ARBITRARY_RE = ^(text|bg)-\[(.+)\]$`: the greedy capture runs to the
final `]`, which the anchor forces to be the last character, and needs at
least one character (class names carry no newline, as the HTML parser splits
the class attribute on whitespace). -/
def arbMatch (s : String) : Option (String × String) :=
  let tail : List Char → Option String := fun rest =>
    match rest.getLast? with
    | some ']' => if 2 ≤ rest.length then some (String.mk rest.dropLast) else none
    | _ => none
  match dropLit "text-[".toList s.toList with
  | some rest => (tail rest).map fun v => ("text", v)
  | none =>
      match dropLit "bg-[".toList s.toList with
      | some rest => (tail rest).map fun v => ("bg", v)
      | none => none

/-- `UTILITY_RE = ^(text|bg)-(.+)$`. -/
def utilMatch (s : String) : Option (String × String) :=
  match dropLit "text-".toList s.toList with
  | some rest => if rest.isEmpty then none else some ("text", String.mk rest)
  | none =>
      match dropLit "bg-".toList s.toList with
      | some rest => if rest.isEmpty then none else some ("bg", String.mk rest)
      | none => none

structure TailwindColorResult where
  property : String
  value : String
  className : String
  deriving DecidableEq

/-- `resolveTailwindColor(className)` over the abstract palette. -/
def resolveTailwindColor (pal : String → Option String) (className : String) :
    Option TailwindColorResult :=
  if skipUtilities.contains className then none
  else
    match arbMatch className with
    | some (pre, rawValue) =>
        some ⟨if pre = "text" then "color" else "background-color", rawValue, className⟩
    | none =>
        match utilMatch className with
        | some (pre, colorPart) =>
            match pal colorPart with
            | some hex =>
                some ⟨if pre = "text" then "color" else "background-color", hex, className⟩
            | none => none
        | none => none

/-- `resolveTailwindForeground(classes)`: the last class resolving to a
`color` utility wins. -/
def resolveTailwindForeground (pal : String → Option String)
    (classes : List String) : Option TailwindColorResult :=
  classes.foldl (fun result cls =>
    match resolveTailwindColor pal cls with
    | some r => if r.property = "color" then some r else result
    | none => result) none

/-- `resolveTailwindBackground(classes)`. -/
def resolveTailwindBackground (pal : String → Option String)
    (classes : List String) : Option TailwindColorResult :=
  classes.foldl (fun result cls =>
    match resolveTailwindColor pal cls with
    | some r => if r.property = "background-color" then some r else result
    | none => result) none

/-! ## `src/packages/astro-contrast/src/matcher/selector-matcher.ts` —
`buildColorPairs` and its background chain -/

/-- `ColorInfo` (the `source` union is a plain string here). -/
structure ColorInfo where
  original : String
  rgb : Option Rgb
  source : String
  selector : String
  deriving DecidableEq

/-- `ColorPair` (the element is the node the pair was built for). -/
structure ColorPair where
  element : Elem
  foreground : ColorInfo
  background : ColorInfo
  fontSize : Option String
  fontWeight : Option String

/-- The `TAILWIND_FONT_SIZES` table. -/
def twFontSizes : List (String × String) :=
  [("text-xs", "12px"), ("text-sm", "14px"), ("text-base", "16px"),
   ("text-lg", "18px"), ("text-xl", "20px"), ("text-2xl", "24px"),
   ("text-3xl", "30px"), ("text-4xl", "36px"), ("text-5xl", "48px"),
   ("text-6xl", "60px"), ("text-7xl", "72px"), ("text-8xl", "96px"),
   ("text-9xl", "128px")]

/-- The `TAILWIND_FONT_WEIGHTS` table. -/
def twFontWeights : List (String × String) :=
  [("font-thin", "100"), ("font-extralight", "200"), ("font-light", "300"),
   ("font-normal", "400"), ("font-medium", "500"), ("font-semibold", "600"),
   ("font-bold", "700"), ("font-extrabold", "800"), ("font-black", "900")]

/-- The `HEADING_DEFAULTS` table (font size, then font weight). As with
`NAMED_COLORS`, lookups of inherited object-prototype keys are outside this
model. -/
def headingDefaults : List (String × String × String) :=
  [("h1", "32px", "700"), ("h2", "24px", "700"), ("h3", "18.72px", "700"),
   ("h4", "16px", "700"), ("h5", "13.28px", "700"), ("h6", "10.72px", "700")]

/-- JavaScript string truthiness: the empty string is falsy. -/
def truthyStr : Option String → Option String
  | some v => if v = "" then none else some v
  | none => none

/-- `ROOT_SELECTORS`. -/
def rootSelectors : List String := ["body", "html", ":root"]

/-- The inner declaration loop of `findRootBackground`: the first
`background-color` or `background` declaration. -/
def firstBgDecl : List CssDeclarationInfo → Option CssDeclarationInfo
  | [] => none
  | d :: rest =>
      if d.property = "background-color" ∨ d.property = "background" then some d
      else firstBgDecl rest

/-- `findRootBackground(rules)`. -/
def findRootBackground (T : TransFns) : List CssRuleInfo → Option ColorInfo
  | [] => none
  | rule :: rest =>
      if rule.ignored then findRootBackground T rest
      else if rootSelectors.contains (jsTrim rule.selector) = false then
        findRootBackground T rest
      else
        match firstBgDecl rule.declarations with
        | some decl =>
            some ⟨decl.value, parseColorTop T (decl.resolvedValue.getD decl.value),
              "stylesheet", "inherited:" ++ jsTrim rule.selector⟩
        | none => findRootBackground T rest

/-- One step of `findAncestorBackground`: inline background, then Tailwind
background utility, then best matching stylesheet declaration. -/
def ancestorBgHere (T : TransFns) (pal : String → Option String)
    (rules : List CssRuleInfo) (ancestor : Elem) : Option ColorInfo :=
  match truthyStr (ancestor.inlineStyles.bind fun st => st.backgroundColor) with
  | some bgc =>
      some ⟨bgc, parseColorTop T bgc, "inline", "inherited:" ++ ancestor.tagName⟩
  | none =>
      match resolveTailwindBackground pal ancestor.classes with
      | some twBg =>
          some ⟨twBg.className, parseColorTop T twBg.value, "stylesheet",
            "inherited:" ++ twBg.className⟩
      | none =>
          match findBestDeclaration ancestor rules "background-color" with
          | some m =>
              some ⟨m.declaration.value,
                parseColorTop T (m.declaration.resolvedValue.getD m.declaration.value),
                "stylesheet", "inherited:" ++ m.selector⟩
          | none => none

/-- `findAncestorBackground(element, rules)`, started at the parent. -/
def findAncestorBackground (T : TransFns) (pal : String → Option String)
    (rules : List CssRuleInfo) : Option Elem → Option ColorInfo
  | none => none
  | some (.mk t c i s h g p) =>
      match ancestorBgHere T pal rules (.mk t c i s h g p) with
      | some info => some info
      | none => findAncestorBackground T pal rules p

/-- The first-three-tier foreground of `buildColorPairs`: inline style,
Tailwind utility class, stylesheet rule. -/
def elementFg (T : TransFns) (pal : String → Option String)
    (rules : List CssRuleInfo) (element : Elem) : Option ColorInfo :=
  match truthyStr (element.inlineStyles.bind fun st => st.color) with
  | some cv => some ⟨cv, parseColorTop T cv, "inline", "inline"⟩
  | none =>
      match resolveTailwindForeground pal element.classes with
      | some tw => some ⟨tw.className, parseColorTop T tw.value, "stylesheet", tw.className⟩
      | none =>
          match findBestDeclaration element rules "color" with
          | some m =>
              some ⟨m.declaration.value,
                parseColorTop T (m.declaration.resolvedValue.getD m.declaration.value),
                "stylesheet", m.selector⟩
          | none => none

/-- The first-three-tier background of `buildColorPairs`. -/
def elementBg (T : TransFns) (pal : String → Option String)
    (rules : List CssRuleInfo) (element : Elem) : Option ColorInfo :=
  match truthyStr (element.inlineStyles.bind fun st => st.backgroundColor) with
  | some cv => some ⟨cv, parseColorTop T cv, "inline", "inline"⟩
  | none =>
      match resolveTailwindBackground pal element.classes with
      | some tw => some ⟨tw.className, parseColorTop T tw.value, "stylesheet", tw.className⟩
      | none =>
          match findBestDeclaration element rules "background-color" with
          | some m =>
              some ⟨m.declaration.value,
                parseColorTop T (m.declaration.resolvedValue.getD m.declaration.value),
                "stylesheet", m.selector⟩
          | none => none

/-- The assumed black foreground default. -/
def defaultFg : ColorInfo :=
  ⟨"#000000 (assumed)", some ⟨some 0, some 0, some 0, none⟩, "stylesheet", "(default)"⟩

/-- The assumed white background default. -/
def defaultBgWhite : ColorInfo :=
  ⟨"#ffffff (assumed)", some ⟨some 255, some 255, some 255, none⟩, "stylesheet", "(default)"⟩

/-- The background fallback chain: ancestor, then root, then white. -/
def bgFallback (T : TransFns) (pal : String → Option String)
    (rules : List CssRuleInfo) (element : Elem) : ColorInfo :=
  match findAncestorBackground T pal rules element.parent with
  | some info => info
  | none =>
      match findRootBackground T rules with
      | some info => info
      | none => defaultBgWhite

/-- The background of a pair before compositing. -/
def bgResolved (T : TransFns) (pal : String → Option String)
    (rules : List CssRuleInfo) (element : Elem) : ColorInfo :=
  match elementBg T pal rules element with
  | some b => b
  | none => bgFallback T pal rules element

/-- The foreground of a pair. -/
def fgResolved (T : TransFns) (pal : String → Option String)
    (rules : List CssRuleInfo) (element : Elem) : ColorInfo :=
  match elementFg T pal rules element with
  | some f => f
  | none => defaultFg

/-- The rgb value of the surface behind the element, for the compositing
step: ancestor, then root, then opaque white; `none` when the surface was
found but its color text did not parse. -/
def behindRgb (T : TransFns) (pal : String → Option String)
    (rules : List CssRuleInfo) (element : Elem) : Option Rgb :=
  match findAncestorBackground T pal rules element.parent with
  | some info => info.rgb
  | none =>
      match findRootBackground T rules with
      | some info => info.rgb
      | none => some ⟨some 255, some 255, some 255, none⟩

/-- The compositing block of `buildColorPairs`: a parsed background whose
alpha is present and below 1 (NaN compares false) is re-rounded onto the
behind surface when that surface parsed; its alpha field is dropped. -/
def compositeBgPair (T : TransFns) (pal : String → Option String)
    (rules : List CssRuleInfo) (element : Elem) (bg : ColorInfo) : ColorInfo :=
  match bg.rgb with
  | some rgbv =>
      match rgbv.a with
      | some av =>
          if jqLtB av 1 then
            match behindRgb T pal rules element with
            | some behind =>
                { bg with rgb := some ⟨
                    jqRound (jqAdd (jqMul rgbv.r av) (jqMul behind.r (jqSub (some 1) av))),
                    jqRound (jqAdd (jqMul rgbv.g av) (jqMul behind.g (jqSub (some 1) av))),
                    jqRound (jqAdd (jqMul rgbv.b av) (jqMul behind.b (jqSub (some 1) av))),
                    none⟩ }
            | none => bg
          else bg
      | none => bg
  | none => bg

/-- One falsy-aware assignment step of the font resolution: keep a truthy
current value; otherwise take the candidate when present (an empty string
can be assigned, staying falsy for the next step). -/
def fsStep (x y : Option String) : Option String :=
  match truthyStr x with
  | some _ => x
  | none =>
      match y with
      | some v => some v
      | none => x

/-- The Tailwind class loops of the font resolution: the first class found
in the table wins (its values are never empty, hence truthy). -/
def firstTableHit (table : List (String × String)) : List String → Option String
  | [] => none
  | cls :: rest =>
      match table.lookup cls with
      | some v => some v
      | none => firstTableHit table rest

/-- The stylesheet tier of the font resolution. -/
def cssFontValue (rules : List CssRuleInfo) (element : Elem)
    (property : String) : Option String :=
  match findBestDeclaration element rules property with
  | some m => some (m.declaration.resolvedValue.getD m.declaration.value)
  | none => none

/-- Font-size resolution: inline, Tailwind, stylesheet, heading default. -/
def resolveFontSize (rules : List CssRuleInfo) (element : Elem) : Option String :=
  let fs0 := element.inlineStyles.bind fun st => st.fontSize
  let fs1 := fsStep fs0 (firstTableHit twFontSizes element.classes)
  let fs2 := fsStep fs1 (cssFontValue rules element "font-size")
  fsStep fs2 ((headingDefaults.lookup element.tagName).map Prod.fst)

/-- Font-weight resolution: inline, Tailwind, stylesheet, heading default. -/
def resolveFontWeight (rules : List CssRuleInfo) (element : Elem) : Option String :=
  let fw0 := element.inlineStyles.bind fun st => st.fontWeight
  let fw1 := fsStep fw0 (firstTableHit twFontWeights element.classes)
  let fw2 := fsStep fw1 (cssFontValue rules element "font-weight")
  fsStep fw2 ((headingDefaults.lookup element.tagName).map fun p => p.2)

/-- The per-element body of the `buildColorPairs` loop. -/
def mkColorPair (T : TransFns) (pal : String → Option String)
    (rules : List CssRuleInfo) (element : Elem) : Option ColorPair :=
  if element.hasTextContent = false then none
  else if element.ignored = true then none
  else if elementFg T pal rules element = none ∧ elementBg T pal rules element = none then
    none
  else
    some ⟨element, fgResolved T pal rules element,
      compositeBgPair T pal rules element (bgResolved T pal rules element),
      resolveFontSize rules element, resolveFontWeight rules element⟩

/-- `buildColorPairs(elements, rules)`. -/
def buildColorPairs (T : TransFns) (pal : String → Option String)
    (elements : List Elem) (rules : List CssRuleInfo) : List ColorPair :=
  elements.filterMap (mkColorPair T pal rules)

/-! ## `src/packages/astro-contrast/src/matcher/ignore-filter.ts` and the
pure core of `analyzer.ts` -/

/-- A `ContrastResult`, restricted to the fields the ignore filter reads
(the WCAG numbers live on the real-number side and play no part here). -/
structure ContrastResult where
  element : Elem
  foreground : ColorInfo
  background : ColorInfo

/-- `rgbEquals(a, b)`: strict equality channelwise (false on NaN), with
absent alpha read as 1. -/
def rgbEquals (a b : Rgb) : Bool :=
  jqEqB a.r b.r && jqEqB a.g b.g && jqEqB a.b b.b &&
    jqEqB (a.a.getD (some 1)) (b.a.getD (some 1))

/-- `wildcardToRegex` glob matching, fuel-indexed: `*` matches any (possibly
empty) run of characters, everything else is literal (the regex escaping
makes every non-star character literal, and the pattern is anchored at both
ends). -/
def globMatchF : ℕ → List Char → List Char → Bool
  | 0, _, _ => false
  | _ + 1, [], [] => true
  | _ + 1, [], _ :: _ => false
  | f + 1, '*' :: ps, cs =>
      globMatchF f ps cs ||
        (match cs with
         | [] => false
         | _ :: cs2 => globMatchF f ('*' :: ps) cs2)
  | _ + 1, _ :: _, [] => false
  | f + 1, p :: ps, c :: cs => if p = c then globMatchF f ps cs else false

/-- `^[a-zA-Z][a-zA-Z0-9-]*$`. -/
def isTagSelector (cs : List Char) : Bool :=
  match cs with
  | c :: rest => c.isAlpha && rest.all (fun x => x.isAlphanum || x = '-')
  | [] => false

/-- `buildSelectorMatcher(selector)` applied to a result: tag name equality,
id (`#`) with optional wildcard, class (`.`) with optional wildcard,
anything else never matches. -/
def selectorMatches (selector : String) (r : ContrastResult) : Bool :=
  let trimmed := jsTrim selector
  if isTagSelector trimmed.toList then r.element.tagName = trimmed
  else
    match trimmed.toList with
    | '#' :: idcs =>
        if idcs.contains '*' then
          match r.element.id with
          | some i => globMatchF (idcs.length + i.length + 1) idcs i.toList
          | none => false
        else r.element.id = some (String.mk idcs)
    | '.' :: clscs =>
        if clscs.contains '*' then
          r.element.classes.any fun c =>
            globMatchF (clscs.length + c.length + 1) clscs c.toList
        else r.element.classes.contains (String.mk clscs)
    | _ => false

structure IgnorePairSpec where
  foreground : String
  background : String

/-- `IgnoreConfig`. -/
structure IgnoreConfig where
  colors : Option (List String) := none
  pairs : Option (List IgnorePairSpec) := none
  selectors : Option (List String) := none

/-- `ParsedIgnoreConfig`: the selector matchers are kept as the selector
strings, applied through `selectorMatches`. -/
structure ParsedIgnoreConfig where
  colors : List Rgb
  pairs : List (Rgb × Rgb)
  selectors : List String

/-- `parseIgnoreConfig(config)`. -/
def parseIgnoreConfig (T : TransFns) : Option IgnoreConfig → Option ParsedIgnoreConfig
  | none => none
  | some config =>
      let colors := (config.colors.getD []).filterMap fun raw => parseColorTop T raw
      let pairs := (config.pairs.getD []).filterMap fun pr =>
        match parseColorTop T pr.foreground, parseColorTop T pr.background with
        | some fg, some bg => some (fg, bg)
        | _, _ => none
      let selectors := config.selectors.getD []
      if 0 < colors.length ∨ 0 < pairs.length ∨ 0 < selectors.length then
        some ⟨colors, pairs, selectors⟩
      else none

/-- `shouldIgnoreResult(result, parsed)`. -/
def shouldIgnoreResult (result : ContrastResult) (parsed : ParsedIgnoreConfig) : Bool :=
  (parsed.colors.any fun rgb =>
    (match result.foreground.rgb with
     | some f => rgbEquals f rgb
     | none => false) ||
    (match result.background.rgb with
     | some b => rgbEquals b rgb
     | none => false)) ||
  (parsed.pairs.any fun pr =>
    match result.foreground.rgb, result.background.rgb with
    | some f, some b => rgbEquals f pr.1 && rgbEquals b pr.2
    | _, _ => false) ||
  (parsed.selectors.any fun sel => selectorMatches sel result)

/-- `applyIgnoreFilter(results, config)`. -/
def applyIgnoreFilter (T : TransFns) (results : List ContrastResult)
    (config : Option IgnoreConfig) : List ContrastResult :=
  match parseIgnoreConfig T config with
  | none => results
  | some parsed => results.filter fun r => !shouldIgnoreResult r parsed

/-- The statistics of `analyzeFile` that live on this side: the element
count (pre-filter), the checked-pair count (post-filter), and the
unresolvable count (pre-filter). -/
structure FileStats where
  elementsAnalyzed : ℕ
  pairsChecked : ℕ
  unresolvable : ℕ

structure FileAnalysis where
  results : List ContrastResult
  stats : FileStats

/-- The pure post-parse core of `analyzeFile`: color pairs from the parsed
nodes and merged rules, results for the pairs whose two colors parsed, the
global ignore filter, and the statistics record. -/
def analyzeCore (T : TransFns) (pal : String → Option String)
    (htmlNodes : List Elem) (allRules : List CssRuleInfo)
    (ignore : Option IgnoreConfig) : FileAnalysis :=
  let pairs := buildColorPairs T pal htmlNodes allRules
  let results := pairs.filterMap fun pair =>
    match pair.foreground.rgb, pair.background.rgb with
    | some _, some _ => some (⟨pair.element, pair.foreground, pair.background⟩ : ContrastResult)
    | _, _ => none
  let unresolvable := (pairs.filter fun pair =>
    pair.foreground.rgb.isNone || pair.background.rgb.isNone).length
  let filteredResults := applyIgnoreFilter T results ignore
  ⟨filteredResults, ⟨htmlNodes.length, filteredResults.length, unresolvable⟩⟩

/-- The ignore configuration of the C9 scenario. -/
def brandIgnore : Option IgnoreConfig := some ⟨none, none, some [".brand-*"]⟩

/-- A `<span class="brand-badge">` with inline colors, for the C9 scenario. -/
def brandElem : Elem :=
  .mk "span" ["brand-badge"] none (some ⟨some "#fff", some "#000", none, none⟩)
    true false none

/-- A badge result on that element (any colors), for the C9 witness. -/
def brandResult : ContrastResult := ⟨brandElem, defaultFg, defaultBgWhite⟩

/-- The C6 counterexample tree: a child with a translucent inline
background whose parent's inline background does not parse. -/
def c6parent : Elem :=
  .mk "div" [] none (some ⟨none, some "notacolor", none, none⟩) true false none

def c6child : Elem :=
  .mk "p" [] none (some ⟨none, some "rgba(0,0,0,0.5)", none, none⟩) true false
    (some c6parent)

/-- A parentless element with a translucent inline background, for the C6
witness (its behind surface is the assumed white). -/
def c6lone : Elem :=
  .mk "p" [] none (some ⟨none, some "rgba(0,0,0,0.5)", none, none⟩) true false none

/-! ## Supporting lemmas -/

theorem pite_pos {α : Sort _} {p : Prop} (h : p) (t e : α) : pite p t e = t := by
  simp [pite, h]

theorem pite_neg {α : Sort _} {p : Prop} (h : ¬ p) (t e : α) : pite p t e = e := by
  simp [pite, h]

theorem jrMax_comm (x y : JsR) : jrMax x y = jrMax y x := by
  cases x <;> cases y <;> simp [jrMax, max_comm]

theorem jrMin_comm (x y : JsR) : jrMin x y = jrMin y x := by
  cases x <;> cases y <;> simp [jrMin, min_comm]

/-- An opaque foreground passes through compositing unchanged. -/
theorem composite_opaque (fg bg : RgbR) (h : OpaqueR fg) :
    compositeOnBackground fg bg = fg := by
  rcases h with h | ⟨v, hv, h1⟩
  · rw [compositeOnBackground, h]
    exact pite_pos ⟨1, rfl, le_refl 1⟩ _ _
  · rw [compositeOnBackground, hv]
    exact pite_pos ⟨v, rfl, h1⟩ _ _

theorem linearize_zero : linearize 0 = 0 := by
  simp only [linearize]
  norm_num

theorem linearize_255 : linearize 255 = 1 := by
  simp only [linearize]
  rw [if_neg (by norm_num)]
  rw [show ((255:ℝ)/255 + 0.055) / 1.055 = 1 by norm_num]
  exact Real.one_rpow _

theorem linearize_118 : linearize 118 = ((5281:ℝ)/10761) ^ (2.4:ℝ) := by
  simp only [linearize]
  rw [if_neg (by norm_num)]
  rw [show ((118:ℝ)/255 + 0.055) / 1.055 = (5281:ℝ)/10761 by norm_num]

theorem lum_white :
    relativeLuminance ⟨some 255, some 255, some 255, none⟩ = some 1 := by
  simp [relativeLuminance, jrLinearize, jrMul, jrAdd, linearize_255]
  norm_num

theorem lum_tblack (al : Option JsR) :
    relativeLuminance ⟨some 0, some 0, some 0, al⟩ = some 0 := by
  simp [relativeLuminance, jrLinearize, jrMul, jrAdd, linearize_zero]

theorem lum_gray :
    relativeLuminance ⟨some 118, some 118, some 118, none⟩ =
      some (((5281:ℝ)/10761) ^ (2.4:ℝ)) := by
  simp [relativeLuminance, jrLinearize, jrMul, jrAdd, linearize_118]
  ring

theorem grayY_pow :
    (((5281:ℝ)/10761) ^ (2.4:ℝ)) ^ (5:ℕ) = ((5281:ℝ)/10761) ^ (12:ℕ) := by
  rw [← Real.rpow_natCast (((5281:ℝ)/10761) ^ (2.4:ℝ)) 5,
    ← Real.rpow_mul (by norm_num)]
  rw [show (2.4:ℝ) * (5:ℕ) = ((12:ℕ):ℝ) by norm_num]
  exact Real.rpow_natCast _ 12

theorem grayY_lb : (0.1809:ℝ) < ((5281:ℝ)/10761) ^ (2.4:ℝ) := by
  have h0 : (0:ℝ) ≤ ((5281:ℝ)/10761) ^ (2.4:ℝ) := Real.rpow_nonneg (by norm_num) _
  have key : (0.1809:ℝ) ^ (5:ℕ) < (((5281:ℝ)/10761) ^ (2.4:ℝ)) ^ (5:ℕ) := by
    rw [grayY_pow]
    norm_num
  exact lt_of_pow_lt_pow_left 5 h0 key

theorem grayY_ub : ((5281:ℝ)/10761) ^ (2.4:ℝ) < 0.1817 := by
  have key : (((5281:ℝ)/10761) ^ (2.4:ℝ)) ^ (5:ℕ) < (0.1817:ℝ) ^ (5:ℕ) := by
    rw [grayY_pow]
    norm_num
  exact lt_of_pow_lt_pow_left 5 (by norm_num) key

theorem ratio_gray_white :
    contrastRatio ⟨some 118, some 118, some 118, none⟩
        ⟨some 255, some 255, some 255, none⟩ =
      some (1.05 / (((5281:ℝ)/10761) ^ (2.4:ℝ) + 0.05)) := by
  have hY1 : ((5281:ℝ)/10761) ^ (2.4:ℝ) ≤ 1 := le_of_lt (lt_trans grayY_ub (by norm_num))
  rw [contrastRatio, composite_opaque _ _ (Or.inl rfl), lum_gray, lum_white]
  simp only [jrMax, jrMin, jrAdd, jrDiv]
  rw [max_eq_right hY1, min_eq_left hY1]
  norm_num

theorem considerDecl_eq_pickStep (spec : ℕ) (sel property : String)
    (b : Option MatchedDeclaration) (d : CssDeclarationInfo) :
    considerDecl spec sel property b d =
      if declAnswers property d.property then pickStep b ⟨d, spec, sel⟩ else b := by
  cases b <;> simp [considerDecl, pickStep]

theorem foldl_considerDecl (spec : ℕ) (sel property : String) :
    ∀ (decls : List CssDeclarationInfo) (b : Option MatchedDeclaration),
    decls.foldl (considerDecl spec sel property) b =
      ((decls.filter fun d => declAnswers property d.property).map
        fun d => (⟨d, spec, sel⟩ : MatchedDeclaration)).foldl pickStep b := by
  intro decls
  induction decls with
  | nil => intro b; rfl
  | cons d rest ih =>
      intro b
      by_cases h : declAnswers property d.property
      · simp only [List.foldl_cons, considerDecl_eq_pickStep, if_pos h,
          List.filter_cons, h, List.map_cons]
        exact ih _
      · simp only [List.foldl_cons, considerDecl_eq_pickStep, if_neg h,
          List.filter_cons, h]
        exact ih _

theorem considerRule_eq (element : Elem) (property : String)
    (b : Option MatchedDeclaration) (rule : CssRuleInfo) :
    considerRule element property b rule =
      (ruleCandidates element property rule).foldl pickStep b := by
  rw [considerRule, ruleCandidates]
  by_cases hig : rule.ignored
  · simp [hig]
  · simp only [if_neg hig]
    cases hp : parseSelector rule.selector with
    | none => rfl
    | some parsed =>
        by_cases hm : matchesSelector element parsed
        · simp only [if_pos hm]
          exact foldl_considerDecl _ _ _ _ _
        · simp [hm]

theorem findBest_eq_pickBest (element : Elem) (rules : List CssRuleInfo)
    (property : String) :
    findBestDeclaration element rules property =
      pickBest (candidates element rules property) := by
  rw [findBestDeclaration, pickBest, candidates]
  generalize (none : Option MatchedDeclaration) = b
  induction rules generalizing b with
  | nil => rfl
  | cons r rest ih =>
      simp only [List.foldl_cons, List.map_cons, List.flatten_cons,
        List.foldl_append, considerRule_eq]
      exact ih _

/-- What the fold `pickStep` computes: starting from `b0`, the result is
either the unbeaten `b0` or the last list element of maximal specificity. -/
theorem pickFold_spec :
    ∀ (l : List MatchedDeclaration) (b0 : Option MatchedDeclaration),
      (l.foldl pickStep b0 = none ↔ (b0 = none ∧ l = [])) ∧
      (∀ b, l.foldl pickStep b0 = some b →
        (b0 = some b ∧ ∀ c ∈ l, c.specificity < b.specificity) ∨
        (∃ pre post, l = pre ++ b :: post ∧
          (∀ c ∈ pre, c.specificity ≤ b.specificity) ∧
          (∀ c ∈ post, c.specificity < b.specificity) ∧
          (∀ bv, b0 = some bv → bv.specificity ≤ b.specificity))) := by
  intro l
  induction l with
  | nil =>
      intro b0
      constructor
      · simp
      · intro b hb
        exact Or.inl ⟨hb, by simp⟩
  | cons c rest ih =>
      intro b0
      have hstep : ∀ b, (c :: rest).foldl pickStep b = rest.foldl pickStep (pickStep b c) := by
        intro b; rfl
      constructor
      · rw [hstep]
        constructor
        · intro h
          rcases ((ih (pickStep b0 c)).1.mp h) with ⟨h1, h2⟩
          cases b0 with
          | none => exact absurd h1 (by simp [pickStep])
          | some bb =>
              exfalso
              rw [pickStep] at h1
              by_cases hle : bb.specificity ≤ c.specificity <;> simp [hle] at h1
        · rintro ⟨_, h⟩
          exact absurd h (by simp)
      · intro b hb
        rw [hstep] at hb
        rcases (ih (pickStep b0 c)).2 b hb with ⟨h1, h2⟩ | ⟨pre, post, heq, hpre, hpost, hb0⟩
        · -- the element chosen before `rest` survived `rest` unbeaten
          cases b0 with
          | none =>
              rw [pickStep] at h1
              rw [Option.some_inj] at h1
              exact Or.inr ⟨[], rest, by rw [h1]; rfl, by simp, h2, by simp⟩
          | some bb =>
              rw [pickStep] at h1
              by_cases hle : bb.specificity ≤ c.specificity
              · rw [if_pos hle] at h1
                rw [Option.some_inj] at h1
                exact Or.inr ⟨[], rest, by rw [h1]; rfl, by simp, h2,
                  fun bv hbv => by
                    rw [Option.some_inj] at hbv
                    subst hbv
                    rw [← h1]
                    exact hle⟩
              · rw [if_neg hle] at h1
                rw [Option.some_inj] at h1
                refine Or.inl ⟨by rw [h1], ?_⟩
                intro x hx
                rcases List.mem_cons.mp hx with hx | hx
                · rw [hx, ← h1]
                  omega
                · exact h2 x hx
        · -- the winner sits inside `rest`
          refine Or.inr ⟨c :: pre, post, by rw [heq]; rfl, ?_, hpost, ?_⟩
          · intro x hx
            rcases List.mem_cons.mp hx with hx | hx
            · rw [hx]
              cases b0 with
              | none => exact hb0 c (by rw [pickStep])
              | some bb =>
                  by_cases hle : bb.specificity ≤ c.specificity
                  · exact hb0 c (by rw [pickStep, if_pos hle])
                  · have := hb0 bb (by rw [pickStep, if_neg hle])
                    omega
            · exact hpre x hx
          · intro bv hbv
            subst hbv
            by_cases hle : bv.specificity ≤ c.specificity
            · have := hb0 c (by rw [pickStep, if_pos hle])
              omega
            · exact hb0 bv (by rw [pickStep, if_neg hle])

/-! ## Claim theorems -/

/-- C1: `findBestDeclaration` returns null exactly when no non-ignored rule
matching the element carries a declaration answering the property (a bare
`background` also answering a `background-color` lookup); otherwise it
returns a candidate of maximal specificity such that every earlier candidate
has specificity at most its own and every later candidate has strictly
smaller specificity (ties go to the later rule). On the example, `p color:#000`
against `.subtitle color:#999` for a `<p class="subtitle">` picks `#999` with
specificity 10. -/
theorem claim_C1_best_declaration :
    (∀ (element : Elem) (rules : List CssRuleInfo) (property : String),
      (findBestDeclaration element rules property = none ↔
        candidates element rules property = []) ∧
      (∀ b, findBestDeclaration element rules property = some b →
        ∃ pre post, candidates element rules property = pre ++ b :: post ∧
          (∀ c ∈ pre, c.specificity ≤ b.specificity) ∧
          (∀ c ∈ post, c.specificity < b.specificity))) ∧
    findBestDeclaration subtitleElem subtitleRules "color" =
      some ⟨⟨"color", "#999", some "#999"⟩, 10, ".subtitle"⟩ := by
  constructor
  · intro element rules property
    have hspec := pickFold_spec (candidates element rules property) none
    rw [findBest_eq_pickBest, pickBest]
    constructor
    · rw [hspec.1]
      simp
    · intro b hb
      rcases hspec.2 b hb with ⟨h1, _⟩ | ⟨pre, post, heq, hpre, hpost, _⟩
      · exact absurd h1 (by simp)
      · exact ⟨pre, post, heq, hpre, hpost⟩
  · decide

/-- Witness for C1 at the specificity example: the `#999` declaration is the
winning candidate. -/
theorem claim_C1_witness :
    ∃ pre post,
      candidates subtitleElem subtitleRules "color" = pre ++
        (⟨⟨"color", "#999", some "#999"⟩, 10, ".subtitle"⟩ : MatchedDeclaration) :: post ∧
      (∀ c ∈ pre, c.specificity ≤ 10) ∧
      (∀ c ∈ post, c.specificity < 10) :=
  (claim_C1_best_declaration.1 subtitleElem subtitleRules "color").2 _
    claim_C1_best_declaration.2

/-- C2 as stated is false: `contrastRatio` composites the foreground onto the
background first, so a fully transparent black against opaque white gives
ratio 1 in one order and 21 in the other. -/
theorem claim_C2_counterexample :
    contrastRatio ⟨some 0, some 0, some 0, some (some 0)⟩
        ⟨some 255, some 255, some 255, none⟩ ≠
      contrastRatio ⟨some 255, some 255, some 255, none⟩
        ⟨some 0, some 0, some 0, some (some 0)⟩ := by
  have hng : ¬ jrGe (some (0:ℝ)) 1 := by
    rintro ⟨v, hv, h1⟩
    rw [Option.some_inj] at hv
    rw [← hv] at h1
    norm_num at h1
  have hround : jsRound (255:ℝ) = 255 := by
    have hf : (⌊(255:ℝ) + 1/2⌋ : ℤ) = 255 := by
      rw [Int.floor_eq_iff]
      constructor <;> norm_num
    rw [jsRound, hf]
    norm_num
  have hcomp : compositeOnBackground ⟨some 0, some 0, some 0, some (some 0)⟩
      ⟨some 255, some 255, some 255, none⟩ = ⟨some 255, some 255, some 255, none⟩ := by
    rw [compositeOnBackground]
    show pite _ _ _ = _
    rw [pite_neg (by simpa using hng)]
    simp [jrMul, jrSub, jrAdd, jrRound, hround]
  have h1 : contrastRatio ⟨some 0, some 0, some 0, some (some 0)⟩
      ⟨some 255, some 255, some 255, none⟩ = some 1 := by
    rw [contrastRatio, hcomp, lum_white]
    simp only [jrMax, jrMin, jrAdd, jrDiv, max_self, min_self]
    norm_num
  have h2 : contrastRatio ⟨some 255, some 255, some 255, none⟩
      ⟨some 0, some 0, some 0, some (some 0)⟩ = some 21 := by
    rw [contrastRatio, composite_opaque _ _ (Or.inl rfl), lum_white, lum_tblack]
    simp only [jrMax, jrMin, jrAdd, jrDiv]
    rw [max_eq_left (by norm_num : (0:ℝ) ≤ 1), min_eq_right (by norm_num : (0:ℝ) ≤ 1)]
    norm_num
  rw [h1, h2]
  intro h
  rw [Option.some_inj] at h
  norm_num at h

/-- C2 amended: `contrastRatio` is symmetric for opaque colors (alpha absent
or at least 1). -/
theorem claim_C2_symm_opaque (a b : RgbR) (ha : OpaqueR a) (hb : OpaqueR b) :
    contrastRatio a b = contrastRatio b a := by
  rw [contrastRatio, contrastRatio, composite_opaque a b ha, composite_opaque b a hb,
    jrMax_comm, jrMin_comm]

/-- Witness for C2 amended at black and white. -/
theorem claim_C2_witness :
    contrastRatio ⟨some 0, some 0, some 0, none⟩ ⟨some 255, some 255, some 255, none⟩ =
      contrastRatio ⟨some 255, some 255, some 255, none⟩ ⟨some 0, some 0, some 0, none⟩ :=
  claim_C2_symm_opaque _ _ (Or.inl rfl) (Or.inl rfl)

/-- C7: `#767676` text on `#ffffff` background with no font options meets AA,
fails AAA, and the ratio is within 0.01 of 4.54. -/
theorem claim_C7_767676_on_white :
    (evaluateContrast ⟨some 118, some 118, some 118, none⟩
        ⟨some 255, some 255, some 255, none⟩ none).meetsAA ∧
    ¬ (evaluateContrast ⟨some 118, some 118, some 118, none⟩
        ⟨some 255, some 255, some 255, none⟩ none).meetsAAA ∧
    ∃ v : ℝ, (evaluateContrast ⟨some 118, some 118, some 118, none⟩
        ⟨some 255, some 255, some 255, none⟩ none).ratio = some v ∧
      |v - 4.54| < 1/100 := by
  have hlb := grayY_lb
  have hub := grayY_ub
  have hpos : (0:ℝ) < ((5281:ℝ)/10761) ^ (2.4:ℝ) + 0.05 := by nlinarith
  have h1 : (4.53:ℝ) < 1.05 / (((5281:ℝ)/10761) ^ (2.4:ℝ) + 0.05) := by
    rw [lt_div_iff hpos]
    nlinarith
  have h2 : 1.05 / (((5281:ℝ)/10761) ^ (2.4:ℝ) + 0.05) < 4.55 := by
    rw [div_lt_iff hpos]
    nlinarith
  refine ⟨?_, ?_, ?_⟩
  · simp only [evaluateContrast, isLargeText, ratio_gray_white]
    exact ⟨_, rfl, by norm_num; linarith⟩
  · simp only [evaluateContrast, isLargeText, ratio_gray_white]
    rintro ⟨v, hv, h7⟩
    rw [Option.some_inj] at hv
    rw [← hv] at h7
    norm_num at h7
    linarith
  · simp only [evaluateContrast, isLargeText, ratio_gray_white]
    refine ⟨_, rfl, ?_⟩
    rw [abs_lt]
    constructor <;> linarith

mutual

/-- A failing `var()` occurrence inside a node fails the whole node. -/
theorem occFailN (props rn : String → Option String) (m : VNode)
    (h : ∃ n ∈ varOccsN m, substNode props rn n = none) :
    substNode props rn m = none := by
  match m with
  | .word v => simp [varOccsN] at h
  | .space v => simp [varOccsN] at h
  | .div v => simp [varOccsN] at h
  | .func name children =>
      rcases h with ⟨n, hn, hfail⟩
      rw [varOccsN] at hn
      by_cases hv : name = "var"
      · rw [if_pos hv] at hn
        rw [List.mem_singleton] at hn
        subst hn
        exact hfail
      · rw [if_neg hv] at hn
        have hsub : substForest props rn children = none :=
          occFailF props rn children ⟨n, hn, hfail⟩
        simp only [substNode, if_neg hv, hsub]

/-- A failing `var()` occurrence inside a forest fails the whole forest. -/
theorem occFailF (props rn : String → Option String) (l : VForest)
    (h : ∃ n ∈ varOccsF l, substNode props rn n = none) :
    substForest props rn l = none := by
  match l with
  | .nil => simp [varOccsF] at h
  | .cons hd tl =>
      rcases h with ⟨n, hn, hfail⟩
      rw [varOccsF, List.mem_append] at hn
      cases hn with
      | inl hmem =>
          have h1 : substNode props rn hd = none := occFailN props rn hd ⟨n, hmem, hfail⟩
          simp only [substForest, h1]
      | inr hmem =>
          have h2 : substForest props rn tl = none := occFailF props rn tl ⟨n, hmem, hfail⟩
          simp only [substForest, h2]
          cases substNode props rn hd <;> rfl

end

/-- C4: the resolver's recursion is capped at the guard value 10 — any call at
depth 10 or more resolves to null at once — and on the direct cycle
`--a: var(--b); --b: var(--a)` resolving `var(--a)` returns null (the
resolver is a total function, so it terminates on every input). -/
theorem claim_C4_depth_cap_and_cycle :
    (∀ (value : String) (props : String → Option String) (depth : ℕ),
      maxDepth ≤ depth → resolveCustomProperty value props depth = none) ∧
    resolveCustomProperty "var(--a)" cycleProps 0 = none := by
  constructor
  · intro value props depth h
    rw [resolveCustomProperty, Nat.sub_eq_zero_of_le h]
    rfl
  · rfl

/-- Witness for C4's depth-cap conjunct at depth 12. -/
theorem claim_C4_witness :
    resolveCustomProperty "red" (fun _ => none) 12 = none :=
  claim_C4_depth_cap_and_cycle.1 "red" (fun _ => none) 12 (by norm_num [maxDepth])

/-- C5: for a value containing `var(`, one unresolvable `var()` occurrence
(among those the walk reaches in the parsed value) makes the whole result
null, whatever the other occurrences resolved to. -/
theorem claim_C5_unresolved_poisons (value : String)
    (props : String → Option String) (depth : ℕ)
    (hvar : hasVarCall value = true)
    (hocc : ∃ n ∈ varOccsF (parseValue value),
      substNode props (fun s => resolveVar props (maxDepth - depth - 1) s) n = none) :
    resolveCustomProperty value props depth = none := by
  rw [resolveCustomProperty]
  rcases Nat.eq_zero_or_pos (maxDepth - depth) with h0 | hpos
  · rw [h0]
    rfl
  · obtain ⟨k, hk⟩ : ∃ k, maxDepth - depth = k + 1 :=
      ⟨maxDepth - depth - 1, (Nat.succ_pred_eq_of_pos hpos).symm⟩
    have hkk : maxDepth - depth - 1 = k := by omega
    rw [hk]
    rw [resolveVar, hvar]
    have hsub : substForest props (fun s => resolveVar props k s) (parseValue value) = none := by
      refine occFailF _ _ _ ?_
      rw [← hkk]
      exact hocc
    rw [hsub]
    simp

/-- Witness for C5: `var(--good) var(--missing)` with only `--good` bound
resolves to null although the first occurrence resolves fine. -/
theorem claim_C5_witness :
    resolveCustomProperty "var(--good) var(--missing)" goodProps 0 = none :=
  claim_C5_unresolved_poisons "var(--good) var(--missing)" goodProps 0 rfl
    ⟨.func "var" (.cons (.word "--missing") .nil),
      by
        rw [show varOccsF (parseValue "var(--good) var(--missing)") =
          [VNode.func "var" (VForest.cons (.word "--good") .nil),
           VNode.func "var" (VForest.cons (.word "--missing") .nil)] from rfl]
        exact List.mem_cons_of_mem _ (List.mem_cons_self _ _),
      rfl⟩


/-! ### Channel-range lemmas for the color parser -/

theorem chanByte_int {x : JsQ} (h : ChanByte x) : ChanInt x :=
  Or.inr ⟨h.choose, h.choose_spec.1⟩

theorem rgbByte_int {c : Rgb} (h : RgbByte c) : RgbInt c :=
  ⟨chanByte_int h.1, chanByte_int h.2.1, chanByte_int h.2.2⟩

theorem clampByte_some (q : ℚ) : ChanByte (clampByte (some q)) := by
  have h1 : (0:ℚ) ≤ min (max q 0) 255 := le_min (le_max_right q 0) (by norm_num)
  have h2 : min (max q 0) 255 ≤ 255 := min_le_right _ _
  refine ⟨⌊min (max q 0) 255 + 1/2⌋, rfl, ?_, ?_⟩
  · exact Int.le_floor.mpr (by push_cast; linarith)
  · have h3 : (⌊min (max q 0) 255 + 1/2⌋ : ℤ) < 256 :=
      Int.floor_lt.mpr (by push_cast; linarith)
    omega

theorem clampByte_int (x : JsQ) : ChanInt (clampByte x) := by
  cases x with
  | none => exact Or.inl rfl
  | some q => exact chanByte_int (clampByte_some q)

theorem jqRound_int (x : JsQ) : ChanInt (jqRound x) := by
  cases x with
  | none => exact Or.inl rfl
  | some q => exact Or.inr ⟨⌊q + 1/2⌋, rfl⟩

theorem chanInt_qRound (q : ℚ) : ChanInt (some (qRound q)) :=
  Or.inr ⟨⌊q + 1/2⌋, rfl⟩

theorem map_some_shape (al : Option ℚ) :
    (al.map fun v => (some v : JsQ)) = none ∨
      ∃ v : ℚ, (al.map fun v => (some v : JsQ)) = some (some v) := by
  cases al with
  | none => exact Or.inl rfl
  | some v => exact Or.inr ⟨v, rfl⟩

theorem oklabToRgb_int (T : TransFns) (L a b : JsQ) : RgbInt (oklabToRgb T L a b) :=
  ⟨clampByte_int _, clampByte_int _, clampByte_int _⟩

theorem labToRgb_int (T : TransFns) (L a b : JsQ) : RgbInt (labToRgb T L a b) :=
  ⟨clampByte_int _, clampByte_int _, clampByte_int _⟩

theorem oklabToRgb_byte (T : TransFns) (L a b : ℚ) :
    RgbByte (oklabToRgb T (some L) (some a) (some b)) :=
  ⟨clampByte_some _, clampByte_some _, clampByte_some _⟩

theorem labToRgb_byte (T : TransFns) (L a b : ℚ) :
    RgbByte (labToRgb T (some L) (some a) (some b)) := by
  simp only [labToRgb]
  split_ifs <;> exact ⟨clampByte_some _, clampByte_some _, clampByte_some _⟩

theorem hexDigitVal_le (c : Char) (d : ℕ) (h : hexDigitVal c = some d) : d ≤ 15 := by
  rw [hexDigitVal] at h
  split_ifs at h with h1 h2 h3
  · injection h with h; subst h
    simp only [Char.isDigit, Bool.and_eq_true, decide_eq_true_eq] at h1
    have h57 := @UInt32.toNat_le_of_le c.val 57 (by norm_num [UInt32.size]) h1.2
    simp only [Char.toNat]
    omega
  · injection h with h; subst h
    have h102 := @UInt32.toNat_le_of_le c.val 102 (by norm_num [UInt32.size]) (Char.le_def.mp h2.2)
    simp only [Char.toNat]
    omega
  · injection h with h; subst h
    have h70 := @UInt32.toNat_le_of_le c.val 70 (by norm_num [UInt32.size]) (Char.le_def.mp h3.2)
    simp only [Char.toNat]
    omega

theorem hexPrefixVal_lt : ∀ (cs : List Char) (a : Option ℕ) (n : ℕ),
    hexPrefixVal cs a = some n → n < (a.getD 0 + 1) * 16 ^ cs.length := by
  intro cs
  induction cs with
  | nil =>
      intro a n h
      rw [hexPrefixVal] at h
      cases a with
      | none => exact Option.noConfusion h
      | some m =>
          injection h with h; subst h
          simpa using Nat.lt_succ_self m
  | cons c rest ih =>
      intro a n h
      rw [hexPrefixVal] at h
      split at h
      next d hd =>
        have hih := ih (some ((a.getD 0) * 16 + d)) n h
        have hd15 := hexDigitVal_le c d hd
        have hstep : ((a.getD 0) * 16 + d + 1) ≤ (a.getD 0 + 1) * 16 := by omega
        calc n < ((a.getD 0) * 16 + d + 1) * 16 ^ rest.length := by simpa using hih
          _ ≤ ((a.getD 0 + 1) * 16) * 16 ^ rest.length := Nat.mul_le_mul_right _ hstep
          _ = (a.getD 0 + 1) * 16 ^ (c :: rest).length := by rw [List.length_cons]; ring
      next hd =>
        cases a with
        | none => exact Option.noConfusion h
        | some m =>
            injection h with h; subst h
            have h16 : 1 ≤ 16 ^ (c :: rest).length := Nat.one_le_pow _ _ (by norm_num)
            have hgd : ((some m).getD 0 + 1) * 16 ^ (c :: rest).length
                = (m + 1) * 16 ^ (c :: rest).length := rfl
            nlinarith [h16]

theorem strip0x_length_le (body : List Char) : (strip0x body).length ≤ body.length := by
  rw [strip0x.eq_def]
  split
  · split <;> simp <;> omega
  · exact le_refl _

theorem parseIntHex_le (cs : List Char) (n : ℤ) (hlen : cs.length ≤ 2)
    (h : parseIntHex cs = some n) : n.natAbs ≤ 255 := by
  have hlen2 : (cs.dropWhile Char.isWhitespace).length ≤ 2 :=
    le_trans (List.dropWhile_sublist _).length_le hlen
  have key : ∀ (body : List Char) (neg : Bool), body.length ≤ 2 →
      (match hexPrefixVal (strip0x body) none with
       | some m => some (if neg then -(m : ℤ) else (m : ℤ))
       | none => none) = some n → n.natAbs ≤ 255 := by
    intro body neg hb hm
    split at hm
    next m hpv =>
      have hlt := hexPrefixVal_lt _ _ _ hpv
      have hsl : (strip0x body).length ≤ 2 := le_trans (strip0x_length_le body) hb
      have h16 : (16:ℕ) ^ (strip0x body).length ≤ 16 ^ 2 :=
        Nat.pow_le_pow_right (by norm_num) hsl
      have hm255 : m ≤ 255 := by
        have hm256 : m < 16 ^ 2 := by
          calc m < (((none : Option ℕ).getD 0) + 1) * 16 ^ (strip0x body).length := hlt
            _ = 16 ^ (strip0x body).length := by simp
            _ ≤ 16 ^ 2 := h16
        omega
      injection hm with hm
      subst hm
      cases neg <;> simp <;> omega
    next => exact Option.noConfusion hm
  rw [parseIntHex] at h
  split at h
  next r heq =>
    refine key r true ?_ h
    rw [heq] at hlen2; simp at hlen2; omega
  next r heq =>
    refine key r false ?_ h
    rw [heq] at hlen2; simp at hlen2; omega
  next r h1 h2 =>
    exact key _ false hlen2 h

theorem parseHexCore_bound (hl : List Char) (c : Rgb) (hp : parseHexCore hl = some c) :
    (∃ n : ℤ, c.r = some (n : ℚ) ∧ n.natAbs ≤ 255) ∧
    (∃ n : ℤ, c.g = some (n : ℚ) ∧ n.natAbs ≤ 255) ∧
    (∃ n : ℤ, c.b = some (n : ℚ) ∧ n.natAbs ≤ 255) := by
  rw [parseHexCore] at hp
  split at hp
  · exact Option.noConfusion hp
  · split at hp
    next r g b hr hg hb =>
      have hr2 := parseIntHex_le _ _ (le_trans (List.length_take_le _ _) (by norm_num)) hr
      have hg2 := parseIntHex_le _ _ (le_trans (List.length_take_le _ _) (by norm_num)) hg
      have hb2 := parseIntHex_le _ _ (le_trans (List.length_take_le _ _) (by norm_num)) hb
      split at hp <;>
        (injection hp with hp; subst hp;
         exact ⟨⟨r, rfl, hr2⟩, ⟨g, rfl, hg2⟩, ⟨b, rfl, hb2⟩⟩)
    next => exact Option.noConfusion hp

theorem parseHex_bound (s : String) (c : Rgb) (hp : parseHex s = some c) :
    (∃ n : ℤ, c.r = some (n : ℚ) ∧ n.natAbs ≤ 255) ∧
    (∃ n : ℤ, c.g = some (n : ℚ) ∧ n.natAbs ≤ 255) ∧
    (∃ n : ℤ, c.b = some (n : ℚ) ∧ n.natAbs ≤ 255) :=
  parseHexCore_bound _ c hp

theorem parseHex_int (s : String) (c : Rgb) (hp : parseHex s = some c) : RgbInt c := by
  obtain ⟨⟨r, hr, _⟩, ⟨g, hg, _⟩, ⟨b, hb, _⟩⟩ := parseHex_bound s c hp
  exact ⟨Or.inr ⟨r, hr⟩, Or.inr ⟨g, hg⟩, Or.inr ⟨b, hb⟩⟩

theorem scanRgbTail_byte (cs : List Char) (c : Rgb) (h : scanRgbTail cs = some c) :
    RgbByte c ∧ (c.a = none ∨ ∃ v : ℚ, c.a = some (some v)) := by
  rw [scanRgbTail] at h
  split at h
  · exact Option.noConfusion h
  · split at h
    · exact Option.noConfusion h
    · split at h
      · exact Option.noConfusion h
      · split at h
        · exact Option.noConfusion h
        · split at h
          · exact Option.noConfusion h
          · split at h
            · exact Option.noConfusion h
            · injection h with h
              subst h
              exact ⟨⟨clampByte_some _, clampByte_some _, clampByte_some _⟩,
                map_some_shape _⟩

theorem findRgb_some : ∀ (f : ℕ) (cs : List Char) (c : Rgb),
    findRgb f cs = some c → ∃ t, scanRgbTail t = some c := by
  intro f
  induction f with
  | zero => intro cs c h; exact Option.noConfusion h
  | succ f ih =>
      intro cs c h
      cases cs with
      | nil => exact Option.noConfusion h
      | cons a rest =>
          rw [findRgb] at h
          split at h
          next tail hhead =>
            split at h
            next rgb hscan =>
              injection h with h; subst h
              exact ⟨tail, hscan⟩
            next => exact ih rest c h
          next => exact ih rest c h

theorem parseRgb_byte (s : String) (c : Rgb) (h : parseRgb s = some c) :
    RgbByte c ∧ (c.a = none ∨ ∃ v : ℚ, c.a = some (some v)) := by
  obtain ⟨t, ht⟩ := findRgb_some _ _ _ h
  exact scanRgbTail_byte t c ht

theorem scanHslTail_int (cs : List Char) (c : Rgb) (h : scanHslTail cs = some c) :
    RgbInt c := by
  rw [scanHslTail] at h
  split at h
  · exact Option.noConfusion h
  · split at h
    · exact Option.noConfusion h
    · split at h
      · exact Option.noConfusion h
      · split at h
        · exact Option.noConfusion h
        · split at h
          · exact Option.noConfusion h
          · split at h
            · exact Option.noConfusion h
            · dsimp only [] at h
              split at h <;>
                (injection h with h; subst h;
                 exact ⟨chanInt_qRound _, chanInt_qRound _, chanInt_qRound _⟩)

theorem findHsl_some : ∀ (f : ℕ) (cs : List Char) (c : Rgb),
    findHsl f cs = some c → ∃ t, scanHslTail t = some c := by
  intro f
  induction f with
  | zero => intro cs c h; exact Option.noConfusion h
  | succ f ih =>
      intro cs c h
      cases cs with
      | nil => exact Option.noConfusion h
      | cons a rest =>
          rw [findHsl] at h
          split at h
          next tail hhead =>
            split at h
            next rgb hscan =>
              injection h with h; subst h
              exact ⟨tail, hscan⟩
            next => exact ih rest c h
          next => exact ih rest c h

theorem parseHsl_int (s : String) (c : Rgb) (h : parseHsl s = some c) : RgbInt c := by
  obtain ⟨t, ht⟩ := findHsl_some _ _ _ h
  exact scanHslTail_int t c ht

theorem findTail_some {A : Type} (head : List Char → Option (List Char))
    (tail : List Char → Option A) :
    ∀ (f : ℕ) (cs : List Char) (a : A), findTail head tail f cs = some a →
      ∃ t, tail t = some a := by
  intro f
  induction f with
  | zero => intro cs a h; exact Option.noConfusion h
  | succ f ih =>
      intro cs a h
      cases cs with
      | nil => exact Option.noConfusion h
      | cons x rest =>
          rw [findTail] at h
          split at h
          next t hh =>
            split at h
            next b hb => injection h with h; subst h; exact ⟨t, hb⟩
            next => exact ih rest a h
          next => exact ih rest a h

theorem scanOklabTail_byte (T : TransFns) (cs : List Char) (c : Rgb)
    (h : scanOklabTail T cs = some c) : RgbByte c := by
  rw [scanOklabTail] at h
  split at h
  · exact Option.noConfusion h
  · split at h
    · exact Option.noConfusion h
    · split at h
      · exact Option.noConfusion h
      · split at h
        · exact Option.noConfusion h
        · split at h
          · exact Option.noConfusion h
          · split at h
            · exact Option.noConfusion h
            · injection h with h
              subst h
              exact ⟨(oklabToRgb_byte T _ _ _).1, (oklabToRgb_byte T _ _ _).2.1,
                (oklabToRgb_byte T _ _ _).2.2⟩

theorem parseOklab_byte (T : TransFns) (s : String) (c : Rgb)
    (h : parseOklab T s = some c) : RgbByte c := by
  obtain ⟨t, ht⟩ := findTail_some _ _ _ _ _ h
  exact scanOklabTail_byte T t c ht

theorem scanOklchTail_byte (T : TransFns) (cs : List Char) (c : Rgb)
    (h : scanOklchTail T cs = some c) : RgbByte c := by
  rw [scanOklchTail] at h
  split at h
  · exact Option.noConfusion h
  · split at h
    · exact Option.noConfusion h
    · split at h
      · exact Option.noConfusion h
      · split at h
        · exact Option.noConfusion h
        · split at h
          · exact Option.noConfusion h
          · split at h
            · exact Option.noConfusion h
            · injection h with h
              subst h
              exact ⟨(oklabToRgb_byte T _ _ _).1, (oklabToRgb_byte T _ _ _).2.1,
                (oklabToRgb_byte T _ _ _).2.2⟩

theorem parseOklch_byte (T : TransFns) (s : String) (c : Rgb)
    (h : parseOklch T s = some c) : RgbByte c := by
  obtain ⟨t, ht⟩ := findTail_some _ _ _ _ _ h
  exact scanOklchTail_byte T t c ht

theorem scanCieLabTail_byte (T : TransFns) (cs : List Char) (c : Rgb)
    (h : scanCieLabTail T cs = some c) : RgbByte c := by
  rw [scanCieLabTail] at h
  split at h
  · exact Option.noConfusion h
  · split at h
    · exact Option.noConfusion h
    · split at h
      · exact Option.noConfusion h
      · split at h
        · exact Option.noConfusion h
        · split at h
          · exact Option.noConfusion h
          · split at h
            · exact Option.noConfusion h
            · injection h with h
              subst h
              exact ⟨(labToRgb_byte T _ _ _).1, (labToRgb_byte T _ _ _).2.1,
                (labToRgb_byte T _ _ _).2.2⟩

theorem parseCieLab_byte (T : TransFns) (s : String) (c : Rgb)
    (h : parseCieLab T s = some c) : RgbByte c := by
  obtain ⟨t, ht⟩ := findTail_some _ _ _ _ _ h
  exact scanCieLabTail_byte T t c ht

theorem scanCieLchTail_byte (T : TransFns) (cs : List Char) (c : Rgb)
    (h : scanCieLchTail T cs = some c) : RgbByte c := by
  rw [scanCieLchTail] at h
  split at h
  · exact Option.noConfusion h
  · split at h
    · exact Option.noConfusion h
    · split at h
      · exact Option.noConfusion h
      · split at h
        · exact Option.noConfusion h
        · split at h
          · exact Option.noConfusion h
          · split at h
            · exact Option.noConfusion h
            · injection h with h
              subst h
              exact ⟨(labToRgb_byte T _ _ _).1, (labToRgb_byte T _ _ _).2.1,
                (labToRgb_byte T _ _ _).2.2⟩

theorem parseCieLch_byte (T : TransFns) (s : String) (c : Rgb)
    (h : parseCieLch T s = some c) : RgbByte c := by
  obtain ⟨t, ht⟩ := findTail_some _ _ _ _ _ h
  exact scanCieLchTail_byte T t c ht

theorem lookup_mem : ∀ (l : List (String × String)) (s hex : String),
    l.lookup s = some hex → (s, hex) ∈ l := by
  intro l
  induction l with
  | nil => intro s hex h; exact Option.noConfusion h
  | cons p rest ih =>
      obtain ⟨k, v⟩ := p
      intro s hex h
      rw [List.lookup] at h
      split at h
      next hbeq =>
        injection h with h
        subst h
        have hk : s = k := eq_of_beq hbeq
        subst hk
        exact List.mem_cons_self _ _
      next hbeq =>
        exact List.mem_cons_of_mem _ (ih s hex h)

theorem namedHexOk : namedHexOkB = true := by decide

theorem isByteChan_byte (x : JsQ) (h : isByteChanB x = true) : ChanByte x := by
  cases x with
  | none => exact Bool.noConfusion h
  | some q =>
      rw [isByteChanB] at h
      simp only [Bool.and_eq_true, decide_eq_true_eq] at h
      obtain ⟨⟨hden, h0⟩, h255⟩ := h
      refine ⟨q.num, ?_, h0, h255⟩
      rw [Rat.coe_int_num_of_den_eq_one hden]

theorem hexOk_byte (hex : String) (hok : hexOkB hex = true) (c : Rgb)
    (hp : parseHex hex = some c) : RgbByte c ∧ c.a = none := by
  rw [hexOkB, hp] at hok
  simp only [Option.map_some', Option.getD_some, Bool.and_eq_true,
    decide_eq_true_eq] at hok
  obtain ⟨⟨⟨hr, hg⟩, hb⟩, ha⟩ := hok
  exact ⟨⟨isByteChan_byte _ hr, isByteChan_byte _ hg, isByteChan_byte _ hb⟩, ha⟩

theorem namedLookup_byte (s hex : String) (hl : namedLookup s = some hex) (c : Rgb)
    (hp : parseHex hex = some c) : RgbByte c ∧ c.a = none := by
  have hmem : (s, hex) ∈ namedColors := lookup_mem _ _ _ hl
  have hok := List.all_eq_true.mp namedHexOk (s, hex) hmem
  exact hexOk_byte hex (by simpa using hok) c hp

theorem parseColorFam_int (fuel : ℕ) :
    (∀ (T : TransFns) (s : String) (c : Rgb), parseColor T fuel s = some c → RgbInt c) ∧
    (∀ (T : TransFns) (s : String) (c : Rgb), parseColorMix T fuel s = some c → RgbInt c) ∧
    (∀ (T : TransFns) (sp : String) (c1 c2 : Rgb) (w1 w2 : JsQ) (c : Rgb),
      mixInSpace T fuel sp c1 c2 w1 w2 = some c → RgbInt c) := by
  induction fuel with
  | zero =>
      refine ⟨?_, ?_, ?_⟩
      · intro T s c h; rw [parseColor] at h; exact Option.noConfusion h
      · intro T s c h; rw [parseColorMix] at h; exact Option.noConfusion h
      · intro T sp c1 c2 w1 w2 c h; rw [mixInSpace] at h; exact Option.noConfusion h
  | succ fuel ih =>
      obtain ⟨ihC, ihM, ihS⟩ := ih
      refine ⟨?_, ?_, ?_⟩
      · intro T s c h
        rw [parseColor] at h
        try dsimp only [] at h
        split at h
        · exact Option.noConfusion h
        · split at h
          next hex hlook => exact parseHex_int _ _ h
          next hlook =>
            split_ifs at h
            · exact parseHex_int _ _ h
            · exact rgbByte_int (parseRgb_byte _ _ h).1
            · exact parseHsl_int _ _ h
            · exact rgbByte_int (parseOklch_byte T _ _ h)
            · exact rgbByte_int (parseOklab_byte T _ _ h)
            · exact rgbByte_int (parseCieLch_byte T _ _ h)
            · exact rgbByte_int (parseCieLab_byte T _ _ h)
            · exact ihM T _ c h
      · intro T s c h
        rw [parseColorMix] at h
        try dsimp only [] at h
        split at h
        · exact Option.noConfusion h
        · split at h
          next hlast =>
            split at h
            next p0 p1 p2 hsplit =>
              split at h
              · exact Option.noConfusion h
              next colorSpace hin =>
                split at h
                next a1 a2 h1 h2 =>
                  try dsimp only [] at h
                  split at h
                  · exact Option.noConfusion h
                  · exact ihS T colorSpace a1.1 a2.1 _ _ c h
                next => exact Option.noConfusion h
            next => exact Option.noConfusion h
          next => exact Option.noConfusion h
      · intro T sp c1 c2 w1 w2 c h
        rw [mixInSpace] at h
        split_ifs at h
        · injection h with h; subst h
          exact ⟨jqRound_int _, jqRound_int _, jqRound_int _⟩
        · injection h with h; subst h
          exact ⟨clampByte_int _, clampByte_int _, clampByte_int _⟩
        · injection h with h; subst h
          exact oklabToRgb_int T _ _ _
        · injection h with h; subst h
          exact oklabToRgb_int T _ _ _
        · injection h with h; subst h
          exact labToRgb_int T _ _ _
        · injection h with h; subst h
          exact labToRgb_int T _ _ _
        · exact ihC T _ c h

/-- C3: the color-mix percentage rule of `parseColorMix` refines the spec's
rule (both omitted is 50/50; one given as p makes the other 100-p; both
given are normalized; a non-positive sum fails), and the two quoted examples
evaluate as stated, for every transcendental instance. -/
theorem claim_C3_mix_percentages :
    (∀ (p1 p2 : Option ℚ),
      (specMixWeights p1 p2 = none ↔
        jqLeB (jqAdd (resolveMixPcts (p1.map some) (p2.map some)).1
          (resolveMixPcts (p1.map some) (p2.map some)).2) 0 = true) ∧
      (∀ w1 w2 : ℚ, specMixWeights p1 p2 = some (w1, w2) →
        jqDiv (resolveMixPcts (p1.map some) (p2.map some)).1
            (jqAdd (resolveMixPcts (p1.map some) (p2.map some)).1
              (resolveMixPcts (p1.map some) (p2.map some)).2) = some w1 ∧
        jqDiv (resolveMixPcts (p1.map some) (p2.map some)).2
            (jqAdd (resolveMixPcts (p1.map some) (p2.map some)).1
              (resolveMixPcts (p1.map some) (p2.map some)).2) = some w2)) ∧
    (∀ T : TransFns,
      parseColorTop T "color-mix(in srgb, white 80%, black)" =
        some { r := some 204, g := some 204, b := some 204, a := none } ∧
      parseColorTop T "color-mix(in srgb, white, black)" =
        some { r := some 128, g := some 128, b := some 128, a := none } ∧
      parseColorTop T "color-mix(in srgb, white 0%, black 0%)" = none) := by
  constructor
  · intro p1 p2
    rcases p1 with _ | p
    · rcases p2 with _ | q
      · constructor
        · constructor
          · intro hw; exact absurd hw (by norm_num [specMixWeights]; simp)
          · intro hw; exact absurd hw (by norm_num [resolveMixPcts, jqAdd, jqLeB])
        · intro w1 w2 hw
          norm_num [specMixWeights] at hw
          obtain ⟨h1, h2⟩ := hw
          subst h1; subst h2
          refine ⟨?_, ?_⟩ <;> norm_num [resolveMixPcts, jqAdd, jqDiv]
      · constructor
        · constructor
          · intro hw; exact absurd hw (by norm_num [specMixWeights]; simp)
          · intro hw; exact absurd hw (by norm_num [resolveMixPcts, jqAdd, jqSub, jqLeB])
        · intro w1 w2 hw
          norm_num [specMixWeights] at hw
          obtain ⟨h1, h2⟩ := hw
          subst h1; subst h2
          refine ⟨?_, ?_⟩ <;> norm_num [resolveMixPcts, jqAdd, jqSub, jqDiv]
    · rcases p2 with _ | q
      · constructor
        · constructor
          · intro hw; exact absurd hw (by norm_num [specMixWeights]; simp)
          · intro hw; exact absurd hw (by norm_num [resolveMixPcts, jqAdd, jqSub, jqLeB])
        · intro w1 w2 hw
          norm_num [specMixWeights] at hw
          obtain ⟨h1, h2⟩ := hw
          subst h1; subst h2
          refine ⟨?_, ?_⟩ <;> norm_num [resolveMixPcts, jqAdd, jqSub, jqDiv]
      · by_cases hpq : p + q ≤ 0
        · constructor
          · simp [specMixWeights, resolveMixPcts, jqAdd, jqLeB, hpq]
          · intro w1 w2 hw
            simp [specMixWeights, hpq] at hw
        · constructor
          · simp [specMixWeights, resolveMixPcts, jqAdd, jqLeB, hpq]
          · intro w1 w2 hw
            simp [specMixWeights, hpq] at hw
            obtain ⟨h1, h2⟩ := hw
            subst h1; subst h2
            refine ⟨?_, ?_⟩ <;> simp [resolveMixPcts, jqAdd, jqDiv]
  · intro T
    refine ⟨by with_unfolding_all rfl, by with_unfolding_all rfl, by with_unfolding_all rfl⟩

/-- C3 witness: the single-percent case at 80 percent resolves to the
weights four fifths and one fifth. -/
theorem claim_C3_witness :
    specMixWeights (some 80) none = some (4/5, 1/5) ∧
    jqDiv (resolveMixPcts ((some (80:ℚ)).map some) ((none : Option ℚ).map some)).1
        (jqAdd (resolveMixPcts ((some (80:ℚ)).map some) ((none : Option ℚ).map some)).1
          (resolveMixPcts ((some (80:ℚ)).map some) ((none : Option ℚ).map some)).2)
      = some (4/5) :=
  ⟨by norm_num [specMixWeights], ((claim_C3_mix_percentages.1 (some 80) none).2 (4/5) (1/5)
      (by norm_num [specMixWeights])).1⟩

/-- C8 (amended): every successful parse yields integer-or-NaN channels; the
per-syntax guarantees are: rgb() and the four modern color functions give
integers in 0..255, named colors give opaque colors with integers in 0..255,
hex gives integers of magnitude at most 255 (a minus sign can slip through
`parseInt`), hsl() gives integers that a large hue can push past 255, and
alpha is never clamped. -/
theorem claim_C8_channel_ranges :
    (∀ (T : TransFns) (fuel : ℕ) (s : String) (c : Rgb),
        parseColor T fuel s = some c → RgbInt c) ∧
    (∀ (s : String) (c : Rgb), parseRgb s = some c →
        RgbByte c ∧ (c.a = none ∨ ∃ v : ℚ, c.a = some (some v))) ∧
    (∀ (s : String) (c : Rgb), parseHsl s = some c → RgbInt c) ∧
    (∀ (s : String) (c : Rgb), parseHex s = some c →
        (∃ n : ℤ, c.r = some (n : ℚ) ∧ n.natAbs ≤ 255) ∧
        (∃ n : ℤ, c.g = some (n : ℚ) ∧ n.natAbs ≤ 255) ∧
        (∃ n : ℤ, c.b = some (n : ℚ) ∧ n.natAbs ≤ 255)) ∧
    (∀ (s hex : String), namedLookup s = some hex → ∀ c : Rgb,
        parseHex hex = some c → RgbByte c ∧ c.a = none) ∧
    (∀ (T : TransFns) (s : String) (c : Rgb), parseOklab T s = some c → RgbByte c) ∧
    (∀ (T : TransFns) (s : String) (c : Rgb), parseOklch T s = some c → RgbByte c) ∧
    (∀ (T : TransFns) (s : String) (c : Rgb), parseCieLab T s = some c → RgbByte c) ∧
    (∀ (T : TransFns) (s : String) (c : Rgb), parseCieLch T s = some c → RgbByte c) :=
  ⟨fun T fuel s c h => (parseColorFam_int fuel).1 T s c h,
   parseRgb_byte, parseHsl_int, parseHex_bound, namedLookup_byte,
   parseOklab_byte, parseOklch_byte, parseCieLab_byte, parseCieLch_byte⟩

/-- C8 witness: a concrete rgb() parse is in range. -/
theorem claim_C8_witness :
    parseRgb "rgb(1, 2, 3)" = some { r := some 1, g := some 2, b := some 3, a := none } ∧
    RgbByte { r := some 1, g := some 2, b := some 3, a := none } :=
  ⟨by with_unfolding_all rfl,
   (claim_C8_channel_ranges.2.1 "rgb(1, 2, 3)" _ (by with_unfolding_all rfl)).1⟩

/-- C8 counterexample: a color-mix percentage above 100 produces channel 383,
and an rgba() alpha of 2 is kept unclamped, so the claimed ranges fail. -/
theorem claim_C8_counterexample :
    parseColorTop T0 "color-mix(in srgb, white 150%, black)" =
      some { r := some 383, g := some 383, b := some 383, a := none } ∧
    parseColorTop T0 "rgba(0, 0, 0, 2)" =
      some { r := some 0, g := some 0, b := some 0, a := some (some 2) } ∧
    ¬ ((383 : ℚ) ≤ 255) ∧ ¬ ((2 : ℚ) ≤ 1) :=
  ⟨by with_unfolding_all rfl, by with_unfolding_all rfl, by norm_num, by norm_num⟩


theorem mkColorPair_shape (T : TransFns) (pal : String → Option String)
    (rules : List CssRuleInfo) (a : Elem) (p : ColorPair)
    (h : mkColorPair T pal rules a = some p) :
    a.hasTextContent = true ∧ a.ignored = false ∧
    ¬(elementFg T pal rules a = none ∧ elementBg T pal rules a = none) ∧
    p.element = a ∧
    p.background = compositeBgPair T pal rules a (bgResolved T pal rules a) := by
  rw [mkColorPair] at h
  split_ifs at h with h1 h2 h3
  injection h with h
  subst h
  exact ⟨by simpa using h1, by simpa using h2, h3, rfl, rfl⟩

theorem mkColorPair_some (T : TransFns) (pal : String → Option String)
    (rules : List CssRuleInfo) (a : Elem)
    (h1 : a.hasTextContent = true) (h2 : a.ignored = false)
    (h3 : ¬(elementFg T pal rules a = none ∧ elementBg T pal rules a = none)) :
    ∃ p, mkColorPair T pal rules a = some p ∧ p.element = a := by
  rw [mkColorPair]
  rw [if_neg (by simp [h1]), if_neg (by simp [h2]), if_neg h3]
  exact ⟨_, rfl, rfl⟩

/-- C10: `buildColorPairs` emits a pair for an element exactly when the
element has text content, is not ignored, and itself yields a foreground or
a background from the first three priority tiers (inline styles, Tailwind
utility classes, a matching stylesheet rule); ancestor, root and default
surfaces never create a pair on their own. -/
theorem claim_C10_pair_emission :
    ∀ (T : TransFns) (pal : String → Option String) (elements : List Elem)
      (rules : List CssRuleInfo) (e : Elem),
      (∃ p ∈ buildColorPairs T pal elements rules, p.element = e) ↔
        (e ∈ elements ∧ e.hasTextContent = true ∧ e.ignored = false ∧
          (elementFg T pal rules e ≠ none ∨ elementBg T pal rules e ≠ none)) := by
  intro T pal elements rules e
  constructor
  · rintro ⟨p, hp, he⟩
    rw [buildColorPairs, List.mem_filterMap] at hp
    obtain ⟨a, ha, hmk⟩ := hp
    obtain ⟨h1, h2, h3, h4, _⟩ := mkColorPair_shape T pal rules a p hmk
    obtain rfl : a = e := h4.symm.trans he
    exact ⟨ha, h1, h2, not_and_or.mp h3⟩
  · rintro ⟨he, h1, h2, h3⟩
    obtain ⟨p, hp, hpe⟩ := mkColorPair_some T pal rules e h1 h2 (not_and_or.mpr h3)
    exact ⟨p, List.mem_filterMap.mpr ⟨e, he, hp⟩, hpe⟩

/-- C10 witness: the element with a translucent inline background gets a
pair. -/
theorem claim_C10_witness :
    ∃ p ∈ buildColorPairs T0 (fun _ => none) [c6child] [], p.element = c6child := by
  have hbg : elementBg T0 (fun _ => none) [] c6child =
      some ⟨"rgba(0,0,0,0.5)", some ⟨some 0, some 0, some 0, some (some (1/2))⟩,
        "inline", "inline"⟩ := by with_unfolding_all rfl
  exact (claim_C10_pair_emission T0 (fun _ => none) [c6child] [] c6child).mpr
    ⟨List.mem_cons_self _ _, rfl, rfl, Or.inr (by simp [hbg])⟩

/-- C6 (amended): a background whose parsed color carries alpha below 1 is
composited onto the behind surface (ancestor, then root, then assumed
white) and emitted opaque, but only when the behind surface's color parsed;
when the behind surface exists and its color text does not parse,
compositing is skipped and the translucent background is emitted as is.
Every emitted pair's background goes through this compositing step. -/
theorem claim_C6_composite_behind :
    (∀ (T : TransFns) (pal : String → Option String) (rules : List CssRuleInfo)
        (element : Elem) (bg : ColorInfo) (rgbv : Rgb) (av : JsQ),
      bg.rgb = some rgbv → rgbv.a = some av → jqLtB av 1 = true →
      (∀ behind : Rgb, behindRgb T pal rules element = some behind →
        compositeBgPair T pal rules element bg =
          { bg with rgb := some ⟨
              jqRound (jqAdd (jqMul rgbv.r av) (jqMul behind.r (jqSub (some 1) av))),
              jqRound (jqAdd (jqMul rgbv.g av) (jqMul behind.g (jqSub (some 1) av))),
              jqRound (jqAdd (jqMul rgbv.b av) (jqMul behind.b (jqSub (some 1) av))),
              none⟩ }) ∧
      (behindRgb T pal rules element = none →
        compositeBgPair T pal rules element bg = bg)) ∧
    (∀ (T : TransFns) (pal : String → Option String) (elements : List Elem)
        (rules : List CssRuleInfo) (p : ColorPair),
      p ∈ buildColorPairs T pal elements rules →
      p.background = compositeBgPair T pal rules p.element
        (bgResolved T pal rules p.element)) := by
  constructor
  · intro T pal rules element bg rgbv av hbg ha hlt
    constructor
    · intro behind hbehind
      simp only [compositeBgPair, hbg, ha, hlt, hbehind, if_true]
    · intro hbehind
      simp only [compositeBgPair, hbg, ha, hlt, hbehind, if_true]
  · intro T pal elements rules p hp
    rw [buildColorPairs, List.mem_filterMap] at hp
    obtain ⟨a, ha, hmk⟩ := hp
    obtain ⟨_, _, _, h4, h5⟩ := mkColorPair_shape T pal rules a p hmk
    rw [h4]
    exact h5

/-- C6 counterexample: the child's background keeps alpha one half, because
the parent's background text does not parse and compositing is skipped. -/
theorem claim_C6_counterexample :
    (buildColorPairs T0 (fun _ => none) [c6child] []).map
        (fun p => p.background.rgb) =
      [some ⟨some 0, some 0, some 0, some (some (1/2))⟩] := by
  with_unfolding_all rfl

/-- C6 witness: with no ancestor and no root rule the behind surface is the
assumed white, and the half-transparent black composites to opaque 128. -/
theorem claim_C6_witness :
    compositeBgPair T0 (fun _ => none) [] c6lone
        ⟨"rgba(0,0,0,0.5)", some ⟨some 0, some 0, some 0, some (some (1/2))⟩,
          "inline", "inline"⟩ =
      ⟨"rgba(0,0,0,0.5)", some ⟨some 128, some 128, some 128, none⟩,
        "inline", "inline"⟩ := by
  have h := (claim_C6_composite_behind.1 T0 (fun _ => none) [] c6lone
      ⟨"rgba(0,0,0,0.5)", some ⟨some 0, some 0, some 0, some (some (1/2))⟩,
        "inline", "inline"⟩
      ⟨some 0, some 0, some 0, some (some (1/2))⟩ (some (1/2)) rfl rfl
      (by simp only [jqLtB, decide_eq_true_eq]; norm_num)).1
      ⟨some 255, some 255, some 255, none⟩ (by with_unfolding_all rfl)
  rw [h]
  with_unfolding_all rfl

theorem analyzeCore_results_filter (T : TransFns) (pal : String → Option String)
    (htmlNodes : List Elem) (allRules : List CssRuleInfo)
    (config : Option IgnoreConfig) (parsed : ParsedIgnoreConfig)
    (hp : parseIgnoreConfig T config = some parsed) :
    (analyzeCore T pal htmlNodes allRules config).results =
      (analyzeCore T pal htmlNodes allRules none).results.filter
        (fun x => !shouldIgnoreResult x parsed) := by
  have hn : parseIgnoreConfig T (none : Option IgnoreConfig) = none := rfl
  simp only [analyzeCore, applyIgnoreFilter, hp, hn]

/-- C9: with the ignore selectors `['.brand-*']`, the analysis core returns
no result whose element carries the class `brand-badge`, while the
`elementsAnalyzed` statistic still counts every parsed node; concretely,
one such element yields an empty result list with `elementsAnalyzed = 1`,
and the same input without the ignore configuration yields one result. -/
theorem claim_C9_brand_filtered :
    (∀ (T : TransFns) (pal : String → Option String) (htmlNodes : List Elem)
        (allRules : List CssRuleInfo) (r : ContrastResult),
      (analyzeCore T pal htmlNodes allRules brandIgnore).stats.elementsAnalyzed
          = htmlNodes.length ∧
      ("brand-badge" ∈ r.element.classes →
        r ∉ (analyzeCore T pal htmlNodes allRules brandIgnore).results)) ∧
    (analyzeCore T0 (fun _ => none) [brandElem] [] brandIgnore).results = [] ∧
    (analyzeCore T0 (fun _ => none) [brandElem] [] brandIgnore).stats.elementsAnalyzed
      = 1 ∧
    (analyzeCore T0 (fun _ => none) [brandElem] [] none).results.length = 1 := by
  refine ⟨?_, by with_unfolding_all rfl, rfl, by with_unfolding_all rfl⟩
  intro T pal htmlNodes allRules r
  refine ⟨rfl, ?_⟩
  intro hcls hmem
  rw [analyzeCore_results_filter T pal htmlNodes allRules brandIgnore
    ⟨[], [], [".brand-*"]⟩ rfl] at hmem
  have hsel : selectorMatches ".brand-*" r =
      r.element.classes.any (fun c =>
        globMatchF ("brand-*".toList.length + c.length + 1) "brand-*".toList c.toList) :=
    rfl
  have hshould : shouldIgnoreResult r ⟨[], [], [".brand-*"]⟩ = true := by
    rw [shouldIgnoreResult]
    simp only [List.any_nil, List.any_cons, Bool.false_or, Bool.or_false, hsel]
    exact List.any_eq_true.mpr ⟨"brand-badge", hcls, by decide⟩
  have hkeep := (List.mem_filter.mp hmem).2
  rw [hshould] at hkeep
  exact Bool.noConfusion hkeep

/-- C9 witness: a result on the badge element is not among the filtered
results. -/
theorem claim_C9_witness :
    brandResult ∉ (analyzeCore T0 (fun _ => none) [brandElem] [] brandIgnore).results :=
  (claim_C9_brand_filtered.1 T0 (fun _ => none) [brandElem] [] brandResult).2
    (by decide)

end AstroContrast
